import Mathlib

/-!
Verification of the real-time voice agent core (backend/app of the
real-time-voice-agent repository).

The development shallowly embeds the pure control logic of the Python source:

* `backend/app/audio/vad.py`   — `VoiceActivityDetector` (adaptive energy VAD);
* `backend/app/audio/utterance.py` — `UtteranceCollector` (utterance segmentation);
* `backend/app/ws.py`          — `audio_ws` (the per-connection orchestrator loop,
  barge-in state machine and TurnTask lifecycle) and `process_turn` (the
  LLM → TTS turn pipeline);
* `backend/app/sessions.py`    — the session fields touched by the above
  (`is_playing`, `history`, `metrics`).

Python floats are modelled as exact rationals (`ℚ`); every `time.perf_counter()`
value consumed by a piece of code is passed to its embedding as an explicit input.
The FFT inside `_band_limited_rms` has no exact rational value, so the energy of a
non-empty frame is an oracle parameter `E`; the empty-frame guard of the source
(`if len(samples) == 0: return 0.0`, vad.py lines 136-137) is embedded exactly.
Concurrency (`asyncio`) is modelled by making the suspension-point interleavings
explicit inputs: which background tasks finished before a loop iteration, which
final STT transcript the callback delivered, and at which await of `process_turn`
a `CancelledError` or provider error was raised.
-/

namespace VoiceAgent

/-! ## VoiceActivityDetector (backend/app/audio/vad.py) -/

/-- Constructor parameters of `VoiceActivityDetector.__init__` (vad.py lines 14-55).
`sample_rate`, `low_freq`, `high_freq` only affect the FFT oracle and are omitted. -/
structure VADParams where
  noise_alpha : ℚ
  threshold_multiplier : ℚ
  min_speech_frames : ℕ
  hangover_frames : ℕ
deriving DecidableEq

/-- The defaulted constructor arguments of vad.py (also the explicit values passed
at ws.py lines 278-283): noise_alpha 0.95, threshold_multiplier 2.0,
min_speech_frames 2, hangover_frames 5. -/
def vadDefaults : VADParams := ⟨95/100, 2, 2, 5⟩

/-- Mutable attributes of `VoiceActivityDetector` (vad.py lines 40-55).
`history_size` is the fixed constant 3. -/
structure VADState where
  noise_floor : ℚ
  speech_frames : ℕ
  silence_frames : ℕ
  in_speech : Bool
  energy_history : List ℚ
deriving DecidableEq

/-- The freshly constructed state (vad.py lines 41-55), also what `reset()`
(lines 156-162) restores: noise_floor 0.005, counters 0, not in speech,
empty energy history. -/
def VADState.init : VADState := ⟨5/1000, 0, 0, false, []⟩

/-- The fixed `history_size = 3` of vad.py line 55. -/
def historySize : ℕ := 3

/-- Updated `energy_history` (vad.py lines 68-70): append the new energy and
pop the front once the length exceeds `history_size` (the invariant length ≤ 3
makes the single conditional pop of the source exact). -/
def vadHistory (s : VADState) (energy : ℚ) : List ℚ :=
  if (s.energy_history ++ [energy]).length > historySize
  then (s.energy_history ++ [energy]).tail
  else s.energy_history ++ [energy]

/-- Smoothed energy (vad.py line 73): `np.mean` of the updated history when it
is non-empty, else the raw energy (the source's conditional is kept although
the history is never empty after the append). -/
def vadSmoothed (s : VADState) (energy : ℚ) : ℚ :=
  if (vadHistory s energy).length = 0 then energy
  else (vadHistory s energy).sum / (vadHistory s energy).length

/-- Next noise floor (vad.py lines 77-81): the exponentially-weighted update
runs only when the detector is not in speech. -/
def vadNoiseFloorNext (p : VADParams) (s : VADState) (energy : ℚ) : ℚ :=
  if s.in_speech then s.noise_floor
  else p.noise_alpha * s.noise_floor + (1 - p.noise_alpha) * energy

/-- Dynamic threshold (vad.py lines 85-88): `max(0.008, noise_floor *
threshold_multiplier)`, computed from the just-updated noise floor. -/
def vadThreshold (p : VADParams) (s : VADState) (energy : ℚ) : ℚ :=
  max (8/1000) (vadNoiseFloorNext p s energy * p.threshold_multiplier)

/-- Body of `VoiceActivityDetector.is_speech` (vad.py lines 57-119) with the
frame's band-limited RMS `energy` already computed (line 65).  Returns the
updated object state and the returned boolean (`self.in_speech` after the
update).  The counters and the `in_speech` flag update with hysteresis
(lines 93-117): a loud frame bumps `speech_frames`, zeroes `silence_frames`
and enters speech at `min_speech_frames`; a quiet frame does the reverse and
leaves speech at `hangover_frames`. -/
def isSpeechStep (p : VADParams) (s : VADState) (energy : ℚ) : VADState × Bool :=
  if vadThreshold p s energy < vadSmoothed s energy then
    let sf := s.speech_frames + 1
    let ins := if p.min_speech_frames ≤ sf then true else s.in_speech
    (⟨vadNoiseFloorNext p s energy, sf, 0, ins, vadHistory s energy⟩, ins)
  else
    let qf := s.silence_frames + 1
    let ins := if p.hangover_frames ≤ qf then false else s.in_speech
    (⟨vadNoiseFloorNext p s energy, 0, qf, ins, vadHistory s energy⟩, ins)

/-- `VoiceActivityDetector._band_limited_rms` (vad.py lines 121-154).  The empty
frame guard of lines 136-137 (`if len(samples) == 0: return 0.0`) is embedded
exactly; the floating-point FFT value of a non-empty frame has no exact rational
form and is supplied by the oracle `E`. -/
def bandLimitedRms (E : List ℚ → ℚ) (samples : List ℚ) : ℚ :=
  if samples.length = 0 then 0 else E samples

/-- `VoiceActivityDetector.is_speech` on a raw frame: compute the band-limited
energy (vad.py line 65), then run the state update. -/
def isSpeech (p : VADParams) (E : List ℚ → ℚ) (s : VADState) (samples : List ℚ) :
    VADState × Bool :=
  isSpeechStep p s (bandLimitedRms E samples)

/-- The detector state after feeding `n` empty frames from the initial state. -/
def runEmptyFrames (p : VADParams) (E : List ℚ → ℚ) : ℕ → VADState
  | 0 => VADState.init
  | n + 1 => (isSpeech p E (runEmptyFrames p E n) []).1

/-! ## UtteranceCollector (backend/app/audio/utterance.py) -/

/-- Constructor parameters of `UtteranceCollector.__init__` (utterance.py
lines 6-20). -/
structure CollectorParams where
  silence_timeout : ℚ
  min_utterance_sec : ℚ
  early_trigger_sec : ℚ
deriving DecidableEq

/-- The defaulted constructor arguments (utterance.py lines 8-10), used by the
bare `UtteranceCollector()` at ws.py line 284: silence_timeout 1.2,
min_utterance_sec 0.2, early_trigger_sec 0.15. -/
def collectorDefaults : CollectorParams := ⟨6/5, 1/5, 3/20⟩

/-- Mutable attributes of `UtteranceCollector` (utterance.py lines 12-16).
The Python attribute spelled with the word p-a-r-t-i-a-l is rendered
`early_fired` here (it records that the early-intent signal fired). -/
structure CollectorState where
  buffer : List (List ℚ)
  active : Bool
  last_speech_time : Option ℚ
  start_time : Option ℚ
  early_fired : Bool
deriving DecidableEq

/-- The freshly constructed collector: empty buffer, inactive, no recorded
times, early signal not fired (utterance.py lines 12-16).  The silence branch
of `process` resets exactly these values (lines 54-58). -/
def CollectorState.init : CollectorState := ⟨[], false, none, none, false⟩

/-- Result of `UtteranceCollector.process`: Python returns `None`, the string
"EARLY", or the concatenated utterance `np.ndarray`. -/
inductive CollectorResult
  | nothing
  | early
  | utter (u : List ℚ)
deriving DecidableEq

/-- Utterance duration as computed at utterance.py line 60:
`len(utterance) / 16000.0`, with the sample rate hard-coded. -/
def utteranceDuration (u : List ℚ) : ℚ := (u.length : ℚ) / 16000

/-- `UtteranceCollector.process` (utterance.py lines 22-64).  `now` is the
`time.perf_counter()` value of line 23.  Speech branch (26-46): on the
inactive→active transition clear the buffer, record the start time and clear
the early flag (27-31); append the frame and stamp `last_speech_time` (33-34);
fire the early-intent signal once when `now - start_time` has reached
`early_trigger_sec` (36-44).  Silence branch (49-64): Python tests
`if self.active and self.last_speech_time:` — truthiness, hence the `lst ≠ 0`
test; once `now - last_speech_time` reaches `silence_timeout` all state is
cleared (54-58) and the concatenated buffer is returned only when its duration
(sample count / 16000) reaches `min_utterance_sec` (60-62).
`frame_duration` is accepted and never read, exactly as in the source. -/
def collectorProcess (cfg : CollectorParams) (s : CollectorState) (samples : List ℚ)
    (is_speech : Bool) (frame_duration : ℚ) (now : ℚ) : CollectorState × CollectorResult :=
  if is_speech then
    let s1 := if s.active then s else ⟨[], true, s.last_speech_time, some now, false⟩
    let s2 : CollectorState :=
      ⟨s1.buffer ++ [samples], s1.active, some now, s1.start_time, s1.early_fired⟩
    if s2.early_fired = false ∧ cfg.early_trigger_sec ≤ now - s1.start_time.getD 0 then
      (⟨s2.buffer, s2.active, s2.last_speech_time, s2.start_time, true⟩,
       CollectorResult.early)
    else (s2, CollectorResult.nothing)
  else
    if s.active then
      match s.last_speech_time with
      | Option.none => (s, CollectorResult.nothing)
      | Option.some lst =>
        if lst ≠ 0 ∧ cfg.silence_timeout ≤ now - lst then
          if cfg.min_utterance_sec ≤ utteranceDuration s.buffer.flatten then
            (CollectorState.init, CollectorResult.utter s.buffer.flatten)
          else (CollectorState.init, CollectorResult.nothing)
        else (s, CollectorResult.nothing)
    else (s, CollectorResult.nothing)

/-! ## Helper lemmas about the collector (shared) -/

/-- On a frame classified as speech the collector never closes an utterance:
the speech branch of `process` returns only None or "EARLY". -/
lemma collectorProcess_speech_no_utter (cfg : CollectorParams) (s : CollectorState)
    (samples : List ℚ) (fd now : ℚ) (u : List ℚ) :
    (collectorProcess cfg s samples true fd now).2 ≠ CollectorResult.utter u := by
  unfold collectorProcess
  rw [if_pos rfl]
  dsimp only
  split <;> split <;> simp

/-- On a frame classified as silence the collector never returns the
early-intent signal. -/
lemma collectorProcess_silence_no_early (cfg : CollectorParams) (s : CollectorState)
    (samples : List ℚ) (fd now : ℚ) :
    (collectorProcess cfg s samples false fd now).2 ≠ CollectorResult.early := by
  unfold collectorProcess
  rw [if_neg (by simp : ¬ (false = true))]
  split
  · split
    · simp
    · split
      · split <;> simp
      · simp
  · simp

/-! ## VAD claims -/

/-- C6: the noise floor is updated only while the detector is in the silence
state.  A frame processed while `in_speech` leaves the noise floor unchanged
(in particular it can never raise it); a frame processed during silence sets
it to the exponentially-weighted average of vad.py lines 77-81. -/
theorem noise_floor_updated_only_in_silence (p : VADParams) (s : VADState) (e : ℚ) :
    (s.in_speech = true → (isSpeechStep p s e).1.noise_floor = s.noise_floor) ∧
    (s.in_speech = false → (isSpeechStep p s e).1.noise_floor =
      p.noise_alpha * s.noise_floor + (1 - p.noise_alpha) * e) := by
  have hnf : (isSpeechStep p s e).1.noise_floor = vadNoiseFloorNext p s e := by
    unfold isSpeechStep
    split <;> rfl
  constructor <;> intro h <;> rw [hnf] <;> unfold vadNoiseFloorNext <;> simp [h]

/-- Witness for C6: processing one frame of energy 1 from the initial (silence)
state performs the EWMA update with the default decay 0.95. -/
theorem noise_floor_updated_only_in_silence_witness :
    (isSpeechStep vadDefaults VADState.init 1).1.noise_floor =
      95/100 * (5/1000) + (1 - 95/100) * 1 :=
  (noise_floor_updated_only_in_silence vadDefaults VADState.init 1).2 rfl

/-- Claim C7 as stated is false.  An empty frame does yield zero energy
(the guard at vad.py lines 136-137), but `is_speech` classifies using the
mean of the last three energies and the hysteresis state, so an empty frame
arriving after loud frames is still classified as speech.  Concretely: from
the initial state, two frames of band-limited RMS 1 (any sufficiently loud
audio) put the detector in speech; the next frame is empty, its energy is 0,
yet `is_speech` returns True (smoothed energy 2/3 is above the threshold
0.204025, and hysteresis would keep `in_speech` anyway). -/
theorem empty_frame_silence_counterexample :
    ¬ (∀ (E : List ℚ → ℚ) (s : VADState),
        bandLimitedRms E [] = 0 ∧ (isSpeech vadDefaults E s []).2 = false) := by
  intro h
  have h2 := (h (fun _ => 1)
    (isSpeech vadDefaults (fun _ => 1)
      (isSpeech vadDefaults (fun _ => 1) VADState.init [1]).1 [1]).1).2
  norm_num [isSpeech, isSpeechStep, bandLimitedRms, vadHistory, vadSmoothed,
    vadNoiseFloorNext, vadThreshold, VADState.init, vadDefaults, historySize,
    sup_lt_iff] at h2

/-- An all-zero energy history stays all-zero after an empty (zero-energy)
frame is appended. -/
lemma vadHistory_zero_clean (s : VADState) (hz : ∀ x ∈ s.energy_history, x = 0) :
    ∀ x ∈ vadHistory s 0, x = 0 := by
  intro x hx
  unfold vadHistory at hx
  have hx2 : x ∈ s.energy_history ++ [(0:ℚ)] := by
    split at hx
    · exact List.tail_subset _ hx
    · exact hx
  rcases List.mem_append.mp hx2 with hmem | hmem
  · exact hz x hmem
  · simpa using hmem

/-- With an all-zero history, a zero-energy frame has zero smoothed energy. -/
lemma vadSmoothed_zero (s : VADState) (hz : ∀ x ∈ s.energy_history, x = 0) :
    vadSmoothed s 0 = 0 := by
  unfold vadSmoothed
  rw [List.sum_eq_zero (vadHistory_zero_clean s hz), zero_div]
  split <;> rfl

/-- The dynamic threshold is always positive (it is at least the hard minimum
0.008 of vad.py line 86). -/
lemma vadThreshold_pos (p : VADParams) (s : VADState) (e : ℚ) :
    0 < vadThreshold p s e :=
  lt_of_lt_of_le (by norm_num) (le_max_left (8/1000) _)

/-- Invariant step for streams of empty frames: the detector stays out of
speech and its energy history stays all-zero. -/
lemma isSpeechStep_zero_clean (p : VADParams) (s : VADState)
    (hin : s.in_speech = false) (hz : ∀ x ∈ s.energy_history, x = 0) :
    (isSpeechStep p s 0).2 = false ∧ (isSpeechStep p s 0).1.in_speech = false ∧
      ∀ x ∈ (isSpeechStep p s 0).1.energy_history, x = 0 := by
  have hcond : ¬ (vadThreshold p s 0 < vadSmoothed s 0) := by
    rw [vadSmoothed_zero s hz]
    exact not_lt.mpr (le_of_lt (vadThreshold_pos p s 0))
  unfold isSpeechStep
  rw [if_neg hcond]
  dsimp only
  refine ⟨?_, ?_, vadHistory_zero_clean s hz⟩ <;> split <;> simp [hin]

/-- C7 amended: every empty frame yields zero computed energy, and a detector
that is at its initial (equivalently, reset) state and processes only empty
frames never classifies speech.  (The part of C7 that the counterexample
refutes — that an empty frame is always treated as silence regardless of the
preceding frames — is dropped.) -/
theorem empty_frame_zero_energy_silence_from_reset (p : VADParams)
    (E : List ℚ → ℚ) (n : ℕ) :
    bandLimitedRms E [] = 0 ∧ (isSpeech p E (runEmptyFrames p E n) []).2 = false := by
  have hinv : ∀ m, (runEmptyFrames p E m).in_speech = false ∧
      ∀ x ∈ (runEmptyFrames p E m).energy_history, x = 0 := by
    intro m
    induction m with
    | zero => exact ⟨rfl, by simp [runEmptyFrames, VADState.init]⟩
    | succ k ih =>
      have hstep := isSpeechStep_zero_clean p (runEmptyFrames p E k) ih.1 ih.2
      exact ⟨hstep.2.1, hstep.2.2⟩
  refine ⟨rfl, ?_⟩
  have hstep := isSpeechStep_zero_clean p (runEmptyFrames p E n) (hinv n).1 (hinv n).2
  simpa [isSpeech, bandLimitedRms] using hstep.1

/-! ## Collector claims -/

/-- C5: every closed utterance returned by the collector has duration at least
`min_utterance_sec` (with duration as computed by the source: sample count /
16000, utterance.py lines 60-62); and when the closing buffer is shorter, the
collector silently resets and returns None — the short span never surfaces. -/
theorem collector_min_duration (cfg : CollectorParams) (s : CollectorState)
    (samples : List ℚ) (b : Bool) (fd now : ℚ) :
    (∀ s2 u, collectorProcess cfg s samples b fd now = (s2, CollectorResult.utter u) →
      cfg.min_utterance_sec ≤ utteranceDuration u) ∧
    (∀ lst, b = false → s.active = true → s.last_speech_time = some lst → lst ≠ 0 →
      cfg.silence_timeout ≤ now - lst →
      utteranceDuration s.buffer.flatten < cfg.min_utterance_sec →
      collectorProcess cfg s samples b fd now =
        (CollectorState.init, CollectorResult.nothing)) := by
  constructor
  · intro s2 u heq
    rcases b with _ | _
    · unfold collectorProcess at heq
      rw [if_neg (by simp : ¬ (false = true))] at heq
      split at heq
      · split at heq
        · exact absurd heq (by simp)
        · split at heq
          · split at heq
            · rename_i hdur
              injection heq with h1 h2
              injection h2 with h3
              rw [← h3]
              exact hdur
            · exact absurd heq (by simp)
          · exact absurd heq (by simp)
      · exact absurd heq (by simp)
    · exact absurd (congrArg Prod.snd heq)
        (collectorProcess_speech_no_utter cfg s samples fd now u)
  · intro lst hb hactive hlst hne htimeout hshort
    subst hb
    unfold collectorProcess
    rw [if_neg (by simp : ¬ (false = true)), if_pos hactive, hlst]
    dsimp only
    rw [if_pos ⟨hne, htimeout⟩, if_neg (not_le.mpr hshort)]

/-- Witness for C5 (both conjuncts), with a collector configured so that a
single buffered sample meets the minimum duration: a 2-second silence closes
the one-frame buffer and the utterance of duration 1/16000 s is returned. -/
theorem collector_min_duration_witness :
    (1:ℚ)/16000 ≤ utteranceDuration [0] :=
  (collector_min_duration ⟨1, 1/16000, 1⟩ ⟨[[0]], true, some 1, some 1, false⟩
    [] false 0 3).1 CollectorState.init [0]
    (by norm_num [collectorProcess, utteranceDuration, CollectorState.init])

/-- Claim C8 as stated is false: a frame classified as speech arriving while
the collector is already active does not restart the buffer and does not
record a new start time — the frame is appended to the existing buffer
(utterance.py lines 26-34: the reset happens only under `if not self.active`).
Concrete input: an active collector holding one frame with start time 1
receives a speech frame at time 2; afterwards the buffer holds both frames and
the start time is still 1. -/
theorem speech_restart_counterexample :
    ¬ (∀ (cfg : CollectorParams) (s : CollectorState) (samples : List ℚ) (fd now : ℚ),
        (collectorProcess cfg s samples true fd now).1.buffer = [samples] ∧
        (collectorProcess cfg s samples true fd now).1.start_time = some now) := by
  intro h
  have h2 := h collectorDefaults ⟨[[0]], true, some 1, some 1, false⟩ [5] 0 2
  norm_num [collectorProcess, collectorDefaults] at h2

/-- C8 amended: a speech frame arriving while the collector is inactive starts
a fresh utterance (the buffer is cleared to just this frame and a new start
time is recorded); a speech frame arriving while the collector is already
active is appended to the existing buffer with the start time unchanged — one
continuing utterance, never two; and a speech frame never closes an utterance,
so a renewed speech start cannot produce a second output. -/
theorem speech_start_buffer_policy (cfg : CollectorParams) (s : CollectorState)
    (samples : List ℚ) (fd now : ℚ) :
    (s.active = false →
      (collectorProcess cfg s samples true fd now).1.buffer = [samples] ∧
      (collectorProcess cfg s samples true fd now).1.start_time = some now) ∧
    (s.active = true →
      (collectorProcess cfg s samples true fd now).1.buffer = s.buffer ++ [samples] ∧
      (collectorProcess cfg s samples true fd now).1.start_time = s.start_time) ∧
    (∀ u, (collectorProcess cfg s samples true fd now).2 ≠ CollectorResult.utter u) := by
  refine ⟨?_, ?_, fun u => collectorProcess_speech_no_utter cfg s samples fd now u⟩
  · intro hact
    unfold collectorProcess
    rw [if_pos rfl]
    dsimp only
    simp only [hact, Bool.false_eq_true, if_false, List.nil_append]
    split <;> exact ⟨rfl, rfl⟩
  · intro hact
    unfold collectorProcess
    rw [if_pos rfl]
    dsimp only
    simp only [hact, if_true]
    split <;> exact ⟨rfl, rfl⟩

/-- Witness for C8 amended: a first speech frame activates a fresh collector
with buffer exactly that frame and start time stamped. -/
theorem speech_start_buffer_policy_witness :
    (collectorProcess collectorDefaults CollectorState.init [7] true 0 1).1.buffer = [[7]] ∧
    (collectorProcess collectorDefaults CollectorState.init [7] true 0 1).1.start_time
      = some 1 :=
  (speech_start_buffer_policy collectorDefaults CollectorState.init [7] 0 1).1 rfl

/-- C10: `process` ignores its `frame_duration` argument entirely (first
conjunct: the result is identical for any two values of it), and when the
wall-clock silence timeout closes the buffer, the utterance duration used for
the acceptance test is the buffered sample count divided by the hard-coded
16000 (utterance.py line 60) — the collector has no sample-rate parameter at
all.  Utterance boundaries are decided purely from the `time.perf_counter()`
values (`now` here), never from accumulated frame durations. -/
theorem frame_duration_ignored (cfg : CollectorParams) (s : CollectorState)
    (samples : List ℚ) (b : Bool) (fd fd2 now : ℚ) :
    (collectorProcess cfg s samples b fd now =
      collectorProcess cfg s samples b fd2 now) ∧
    (∀ lst, s.active = true → s.last_speech_time = some lst → lst ≠ 0 →
      cfg.silence_timeout ≤ now - lst →
      collectorProcess cfg s samples false fd now =
        (CollectorState.init,
         if cfg.min_utterance_sec ≤ (s.buffer.flatten.length : ℚ) / 16000
         then CollectorResult.utter s.buffer.flatten
         else CollectorResult.nothing)) := by
  refine ⟨rfl, ?_⟩
  intro lst hactive hlst hne htimeout
  unfold collectorProcess
  rw [if_neg (by simp : ¬ (false = true)), if_pos hactive, hlst]
  dsimp only
  rw [if_pos ⟨hne, htimeout⟩]
  split
  · rename_i h
    rw [if_pos (by simpa [utteranceDuration] using h)]
  · rename_i h
    rw [if_neg (by simpa [utteranceDuration] using h)]

/-- Witness for C10: closing a one-frame buffer after a 2-second silence with
the default configuration (minimum 0.2 s) discards the single-sample span. -/
theorem frame_duration_ignored_witness :
    collectorProcess collectorDefaults ⟨[[0]], true, some 1, some 1, false⟩ [] false 0 3 =
      (CollectorState.init, CollectorResult.nothing) := by
  have h := (frame_duration_ignored collectorDefaults
    ⟨[[0]], true, some 1, some 1, false⟩ [] false 0 0 3).2 1 rfl rfl
    (by norm_num) (by norm_num [collectorDefaults])
  rw [h]
  norm_num [collectorDefaults]

/-! ## Python string helpers

`str.strip()` and its truthiness, modelled over the character list. -/

/-- Python `str.strip()`: drop leading and trailing whitespace. -/
def pyStrip (t : String) : String :=
  String.mk (((t.toList.dropWhile Char.isWhitespace).reverse.dropWhile
    Char.isWhitespace).reverse)

/-- Truthiness test `not s.strip()` used at ws.py lines 311, 498 and 642:
true exactly when the string is empty or all-whitespace. -/
def strippedEmpty (t : String) : Bool := t.toList.all Char.isWhitespace

/-! ## The turn pipeline `process_turn` (ws.py lines 582-783)

The pipeline is a single async function; its suspension points (awaits) are
where a `CancelledError` (barge-in / client interrupt) or a provider error can
be raised.  The model works at sentence granularity: `TurnOutcome.cancelAt k`
means the task was cancelled at an await while obtaining or processing the
k-th streamed sentence (`k = sentences.length` is the final stream-exhaustion
await); `errorAt k` is a provider exception raised there.  Every await inside
the loop body of ws.py lines 637-716 precedes the history appends of lines
720-721, and no await separates the end of the loop from those appends, so
this granularity is exact for session-state effects.  A TTS failure is not an
outcome but a per-sentence flag (ws.py lines 650-656 catch it and continue).
-/

/-- Effects of the turn pipeline on the `VoiceSession` object (sessions.py):
history appends (`add_to_history`, lines 148-177), metric updates
(`update_metrics`) and — included so that its absence is expressible — writes
to `is_playing` (which sessions.py performs only in `__init__` and
`remove_session`). -/
inductive SessEff
  | addHistory (role content : String)
  | setPlaying (b : Bool)
  | updateMetrics
deriving DecidableEq

/-- Messages `process_turn` sends over the websocket, in order: the speaking
status (line 630), per-sentence metrics / audio bytes / live captions
(lines 679-716), and the completion, cancellation and error signals
(lines 724-783).  `captions` models the partial-agent-response JSON event. -/
inductive TurnEvent
  | statusSpeaking
  | pipelineMetrics
  | audioBytes (sentence : String)
  | captions (text : String)
  | agentResponseComplete
  | turnComplete
  | turnCancelled
  | errorEvent
  | statusIdle
deriving DecidableEq

/-- How the turn task's control flow ends. -/
inductive TurnOutcome
  | ok
  | cancelAt (k : ℕ)
  | errorAt (k : ℕ)
deriving DecidableEq

/-- Internal classification of how the streaming loop exited. -/
inductive TurnEnd
  | finished
  | cancelled
  | errored
deriving DecidableEq

/-- Websocket events plus session effects produced by one `process_turn`
execution. -/
structure TurnResult where
  events : List TurnEvent
  effects : List SessEff
deriving DecidableEq

/-- The `async for sentence in llm_provider.get_response_stream(...)` loop of
ws.py lines 637-716.  Each list entry is one streamed sentence together with
whether its TTS call succeeds.  `k` counts generator awaits, `full` is
`full_response`, `first` is the `first_audio` flag.  Per iteration: blank
sentences are skipped (line 642); `full_response += sentence + " "` happens
before the TTS attempt (line 645); a TTS exception skips the sentence
(lines 653-656); on the first successful chunk the session metrics update and
the pipeline-metrics event fire (lines 659-706); audio bytes and live
captions are sent (lines 709-716). -/
def turnLoop (outcome : TurnOutcome) :
    List (String × Bool) → ℕ → String → Bool →
    List TurnEvent × List SessEff × String × TurnEnd
  | sentences, k, full, first =>
    if outcome = TurnOutcome.cancelAt k then ([], [], full, TurnEnd.cancelled)
    else if outcome = TurnOutcome.errorAt k then ([], [], full, TurnEnd.errored)
    else
      match sentences with
      | [] => ([], [], full, TurnEnd.finished)
      | (sentence, ttsOk) :: rest =>
        if strippedEmpty sentence then turnLoop outcome rest (k+1) full first
        else if ttsOk = false then
          turnLoop outcome rest (k+1) (full ++ sentence ++ " ") first
        else
          ((if first then [TurnEvent.pipelineMetrics] else []) ++
            TurnEvent.audioBytes sentence ::
            TurnEvent.captions (pyStrip (full ++ sentence ++ " ")) ::
            (turnLoop outcome rest (k+1) (full ++ sentence ++ " ") false).1,
           (if first then [SessEff.updateMetrics] else []) ++
            (turnLoop outcome rest (k+1) (full ++ sentence ++ " ") false).2.1,
           (turnLoop outcome rest (k+1) (full ++ sentence ++ " ") false).2.2.1,
           (turnLoop outcome rest (k+1) (full ++ sentence ++ " ") false).2.2.2)

/-- `process_turn` (ws.py lines 582-783).  After the speaking status (630) and
the streaming loop: on normal completion the user/assistant history pair is
appended (720-721, the only `add_to_history` calls) and the completion events
are sent (724-734); on `CancelledError` the partial response is finalised if
non-blank and `turn_cancelled` is sent, with no history write (738-756); on
any other exception an error event is sent, again with no history write
(758-769); the `finally` block sends the idle status (771-783).  The Python
latency arithmetic (604-624) touches no session state and is omitted. -/
def processTurn (text : String) (sentences : List (String × Bool))
    (outcome : TurnOutcome) : TurnResult :=
  match (turnLoop outcome sentences 0 "" true).2.2.2 with
  | TurnEnd.finished =>
    ⟨TurnEvent.statusSpeaking :: (turnLoop outcome sentences 0 "" true).1 ++
       [TurnEvent.agentResponseComplete, TurnEvent.turnComplete, TurnEvent.statusIdle],
     (turnLoop outcome sentences 0 "" true).2.1 ++
       [SessEff.addHistory "user" text,
        SessEff.addHistory "assistant" (pyStrip (turnLoop outcome sentences 0 "" true).2.2.1)]⟩
  | TurnEnd.cancelled =>
    ⟨TurnEvent.statusSpeaking :: (turnLoop outcome sentences 0 "" true).1 ++
       (if strippedEmpty (turnLoop outcome sentences 0 "" true).2.2.1 then []
        else [TurnEvent.agentResponseComplete]) ++
       [TurnEvent.turnCancelled, TurnEvent.statusIdle],
     (turnLoop outcome sentences 0 "" true).2.1⟩
  | TurnEnd.errored =>
    ⟨TurnEvent.statusSpeaking :: (turnLoop outcome sentences 0 "" true).1 ++
       [TurnEvent.errorEvent, TurnEvent.statusIdle],
     (turnLoop outcome sentences 0 "" true).2.1⟩

/-- The history appends among a turn's session effects. -/
def historyOps (r : TurnResult) : List SessEff :=
  r.effects.filter (fun e => match e with
    | SessEff.addHistory _ _ => true
    | _ => false)

/-- `full_response` accumulated by a turn that consumes the whole stream:
every non-blank sentence is appended with a trailing space, whether or not
its TTS call succeeded. -/
def fullResponseOf (sentences : List (String × Bool)) : String :=
  sentences.foldl
    (fun acc q => if strippedEmpty q.1 then acc else acc ++ q.1 ++ " ") ""

/-! ## The orchestrator loop `audio_ws` (ws.py lines 243-576)

One loop iteration consumes either a binary audio frame (lines 388-541) or a
client JSON interrupt message (lines 361-384).  The VAD / collector outputs
for a frame and the `time.perf_counter()` value are inputs; so are the
concurrency facts the iteration observes: which background TurnTasks finished
during the awaits since the previous iteration, and the final transcript (if
any) delivered by the STT callback `on_transcript` (lines 307-338).
TurnTasks are identified by the order of their creation; `live` is the set of
spawned tasks that have not yet finished or been cancelled-and-awaited.
`is_playing` mirrors `session.is_playing` of sessions.py: `create_session`
initialises it to False and nothing in the loop writes it. -/

/-- One audio frame as the loop iteration sees it. -/
structure FrameInput where
  is_speech : Bool
  result : CollectorResult
  now : ℚ
  finished : List ℕ
  stt_final : Option String
deriving DecidableEq

/-- One loop iteration's input. -/
inductive WsInput
  | frame (f : FrameInput)
  | clientInterrupt (now : ℚ) (finished : List ℕ)
deriving DecidableEq

/-- Events the loop emits: websocket JSON events (`statusListening` for the
listening status of lines 408-412, `interrupt` for barge-in step 1 at
lines 451-454, `stopAudio` for step 5 at lines 478-482, `interruptAck` for
lines 379-382, `statusThinking` for lines 511-515) and TurnTask lifecycle
markers (`taskCancelled` = the task was cancelled and awaited to termination,
`taskSpawned` = `asyncio.create_task(process_turn(...))`). -/
inductive WsEvent
  | statusListening
  | interrupt
  | stopAudio
  | interruptAck
  | statusThinking
  | taskCancelled (id : ℕ)
  | taskSpawned (id : ℕ)
deriving DecidableEq

/-- The loop-local variables of `audio_ws` (lines 287-305) together with the
session fields the claims are about, and the set of live TurnTasks. -/
structure WsState where
  agent_task : Option ℕ
  agent_speaking : Bool
  barge_start_ts : Option ℚ
  ai_speech_start_ts : Option ℚ
  first_speech_ts : Option ℚ
  current_transcript : String
  turn_count : ℕ
  interruptions : ℕ
  is_playing : Bool
  live : List ℕ
  next_id : ℕ
deriving DecidableEq

/-- State right after the connection is accepted (ws.py lines 261-305,
sessions.py lines 10-36): no task, not speaking, no timestamps, empty
transcript, zero counters, `is_playing = False`, no live tasks. -/
def WsState.init : WsState :=
  ⟨Option.none, false, Option.none, Option.none, Option.none, "", 0, 0, false, [], 0⟩

/-- Tasks that finished on their own during the awaits before this iteration
leave the live set (their `finally` at ws.py lines 771-783 has run). -/
def wsApplyFinished (s : WsState) (fin : List ℕ) : WsState :=
  { s with live := s.live.filter (fun id => !(fin.contains id)) }

/-- A final transcript delivered by the STT callback sets
`current_transcript` (ws.py lines 314-315). -/
def wsApplyStt (s : WsState) : Option String → WsState
  | Option.none => s
  | Option.some t => { s with current_transcript := t }

/-- The `if agent_task and not agent_task.done(): agent_task.cancel();
await agent_task` pattern (ws.py lines 365-370 and 457-462): if the tracked
task is still live, cancel it and await its termination. -/
def wsCancelTracked (s : WsState) : WsState × List WsEvent :=
  match s.agent_task with
  | Option.some id =>
    if s.live.contains id then
      ({ s with live := s.live.filter (fun j => !(j == id)) },
       [WsEvent.taskCancelled id])
    else (s, [])
  | Option.none => (s, [])

/-- Barge-in speech handling (ws.py lines 439-487): the first speech frame
starts the barge timer; a later speech frame fires the barge-in once the
timer spans `BARGE_MIN_SPEECH = 0.5` s.  Firing performs, in source order:
send the interrupt event (step 1), cancel and await the tracked task
(step 2), bump the interruption metrics (step 3) — both
`session.metrics["interruptions"]` and the `active_sessions` counter, which
move in lockstep and are modelled as the single field `interruptions` —
reset the agent state (step 4), and send the stop-audio event (step 5). -/
def wsBargeSpeech (s : WsState) (f : FrameInput) : WsState × List WsEvent :=
  match s.barge_start_ts with
  | Option.none => ({ s with barge_start_ts := Option.some f.now }, [])
  | Option.some t =>
    if 1/2 ≤ f.now - t then
      ({ (wsCancelTracked s).1 with
          interruptions := (wsCancelTracked s).1.interruptions + 1,
          agent_task := Option.none,
          agent_speaking := false,
          barge_start_ts := Option.none,
          ai_speech_start_ts := Option.none },
       WsEvent.interrupt :: (wsCancelTracked s).2 ++ [WsEvent.stopAudio])
    else (s, [])

/-- Speech / silence dispatch inside the barge block (ws.py lines 439-490):
a silence frame resets the barge timer. -/
def wsBargeCheckSpeech (s : WsState) (f : FrameInput) : WsState × List WsEvent × Bool :=
  if f.is_speech then
    ((wsBargeSpeech s f).1, (wsBargeSpeech s f).2, false)
  else ({ s with barge_start_ts := Option.none }, [], false)

/-- The barge-in block (ws.py lines 431-490), entered only while
`agent_speaking`.  Lines 436-437: `if ai_speech_start_ts and
(now - ai_speech_start_ts) < BARGE_IGNORE_AFTER_TTS: continue` — Python
truthiness makes a missing (or exactly 0.0) timestamp skip the window test;
the third component reports whether `continue` ran (skipping the rest of the
iteration). -/
def wsBargeBlock (s : WsState) (f : FrameInput) : WsState × List WsEvent × Bool :=
  if s.agent_speaking = false then (s, [], false)
  else
    match s.ai_speech_start_ts with
    | Option.some o =>
      if o ≠ 0 ∧ f.now - o < 3/2 then (s, [], true)
      else wsBargeCheckSpeech s f
    | Option.none => wsBargeCheckSpeech s f

/-- Turn-completion detection (ws.py lines 493-541): when the collector
closed an utterance and the current transcript is non-blank, a new TurnTask
is spawned — without cancelling any previous one: `agent_task` is
overwritten, the thinking status is sent, `agent_speaking` is set and
`ai_speech_start_ts` is stamped (lines 511-541). -/
def wsTurnCompletion (s : WsState) (f : FrameInput) : WsState × List WsEvent :=
  match f.result with
  | CollectorResult.utter _ =>
    if strippedEmpty s.current_transcript then (s, [])
    else
      ({ s with turn_count := s.turn_count + 1,
                agent_task := Option.some s.next_id,
                live := s.live ++ [s.next_id],
                next_id := s.next_id + 1,
                agent_speaking := true,
                ai_speech_start_ts := Option.some f.now,
                current_transcript := "",
                first_speech_ts := Option.none,
                barge_start_ts := Option.none },
       [WsEvent.statusThinking, WsEvent.taskSpawned s.next_id])
  | _ => (s, [])

/-- The tail of a frame iteration after the first-speech bookkeeping: the
early-intent `continue` (ws.py lines 426-428), then the barge-in block
(431-490), then — unless the barge block ran `continue` — turn-completion
detection (493-541).  `ev1` carries any listening-status event already
emitted. -/
def wsFrameRest (s : WsState) (f : FrameInput) (ev1 : List WsEvent) :
    WsState × List WsEvent :=
  if f.result = CollectorResult.early then (s, ev1)
  else
    if (wsBargeBlock s f).2.2 then
      ((wsBargeBlock s f).1, ev1 ++ (wsBargeBlock s f).2.1)
    else
      ((wsTurnCompletion (wsBargeBlock s f).1 f).1,
       ev1 ++ (wsBargeBlock s f).2.1 ++ (wsTurnCompletion (wsBargeBlock s f).1 f).2)

/-- The loop state after the finished-task and STT-callback bookkeeping of a
frame iteration, before the frame is examined. -/
def wsMidBase (s0 : WsState) (f : FrameInput) : WsState :=
  wsApplyStt (wsApplyFinished s0 f.finished) f.stt_final

/-- The condition of ws.py line 404: a speech frame while `first_speech_ts`
is unset emits the listening status and stamps the time. -/
def wsListenCond (s0 : WsState) (f : FrameInput) : Prop :=
  f.is_speech = true ∧ (wsMidBase s0 f).first_speech_ts = Option.none

instance (s0 : WsState) (f : FrameInput) : Decidable (wsListenCond s0 f) :=
  inferInstanceAs (Decidable (_ ∧ _))

/-- The loop state right after the first-speech bookkeeping (ws.py 404-412). -/
def wsMid (s0 : WsState) (f : FrameInput) : WsState :=
  if wsListenCond s0 f
  then { wsMidBase s0 f with first_speech_ts := Option.some f.now }
  else wsMidBase s0 f

/-- One audio-frame iteration (ws.py lines 388-541), in source order: tasks
finished and STT finals delivered during the preceding awaits; first-speech
bookkeeping and listening status (404-412); then the rest.  All
`time.perf_counter()` calls of one iteration are modelled as the single
timestamp `f.now`. -/
def wsFrameStep (s0 : WsState) (f : FrameInput) : WsState × List WsEvent :=
  if wsListenCond s0 f then
    wsFrameRest { wsMidBase s0 f with first_speech_ts := Option.some f.now } f
      [WsEvent.statusListening]
  else
    wsFrameRest (wsMidBase s0 f) f []

/-- A client `{"type": "interrupt"}` message (ws.py lines 361-384): cancel
and await the tracked task if live, reset the agent state, acknowledge.
(`current_transcript` is not reset here.) -/
def wsInterruptStep (s0 : WsState) (fin : List ℕ) : WsState × List WsEvent :=
  ({ (wsCancelTracked (wsApplyFinished s0 fin)).1 with
      agent_task := Option.none,
      agent_speaking := false,
      barge_start_ts := Option.none,
      ai_speech_start_ts := Option.none },
   (wsCancelTracked (wsApplyFinished s0 fin)).2 ++ [WsEvent.interruptAck])

/-- One iteration of the main loop (ws.py lines 348-541). -/
def wsStep (s : WsState) : WsInput → WsState × List WsEvent
  | WsInput.frame f => wsFrameStep s f
  | WsInput.clientInterrupt _ fin => wsInterruptStep s fin

/-- Run the loop over a list of iteration inputs. -/
def wsRun (s : WsState) : List WsInput → WsState
  | [] => s
  | i :: rest => wsRun (wsStep s i).1 rest

/-- The loop state at the start of iteration `i` (from the fresh connection
state). -/
def wsStateAt (inputs : List WsInput) (i : ℕ) : WsState :=
  wsRun WsState.init (inputs.take i)

/-- The events emitted by iteration `i`. -/
def wsEventsAt (inputs : List WsInput) (i : ℕ) : List WsEvent :=
  match inputs.get? i with
  | Option.some x => (wsStep (wsStateAt inputs i) x).2
  | Option.none => []

/-- The `time.perf_counter()` stamp of an iteration input. -/
def timeOf : WsInput → ℚ
  | WsInput.frame f => f.now
  | WsInput.clientInterrupt n _ => n

/-- Whether an input is an audio frame the VAD classified as speech. -/
def isSpeechFrame : WsInput → Bool
  | WsInput.frame f => f.is_speech
  | WsInput.clientInterrupt _ _ => false

/-- Well-formedness of a loop input, guaranteed by the collector
(`collectorProcess_speech_no_utter`, `collectorProcess_silence_no_early`):
the collector returns "EARLY" only on a speech frame and closes an utterance
only on a silence frame. -/
def wfInput : WsInput → Bool
  | WsInput.frame f =>
    match f.result with
    | CollectorResult.early => f.is_speech
    | CollectorResult.utter _ => !f.is_speech
    | CollectorResult.nothing => true
  | WsInput.clientInterrupt _ _ => true

/-! ## Structural lemmas about the loop -/

lemma wsApplyStt_is_playing (s : WsState) (o : Option String) :
    (wsApplyStt s o).is_playing = s.is_playing := by
  cases o <;> rfl

lemma wsCancelTracked_is_playing (s : WsState) :
    (wsCancelTracked s).1.is_playing = s.is_playing := by
  unfold wsCancelTracked
  split
  · split <;> rfl
  · rfl

lemma wsBargeSpeech_is_playing (s : WsState) (f : FrameInput) :
    (wsBargeSpeech s f).1.is_playing = s.is_playing := by
  unfold wsBargeSpeech
  split
  · rfl
  · split
    · exact wsCancelTracked_is_playing s
    · rfl

lemma wsBargeCheckSpeech_is_playing (s : WsState) (f : FrameInput) :
    (wsBargeCheckSpeech s f).1.is_playing = s.is_playing := by
  unfold wsBargeCheckSpeech
  split
  · exact wsBargeSpeech_is_playing s f
  · rfl

lemma wsBargeBlock_is_playing (s : WsState) (f : FrameInput) :
    (wsBargeBlock s f).1.is_playing = s.is_playing := by
  unfold wsBargeBlock
  split
  · rfl
  · split
    · split
      · rfl
      · exact wsBargeCheckSpeech_is_playing s f
    · exact wsBargeCheckSpeech_is_playing s f

lemma wsTurnCompletion_is_playing (s : WsState) (f : FrameInput) :
    (wsTurnCompletion s f).1.is_playing = s.is_playing := by
  unfold wsTurnCompletion
  split
  · split <;> rfl
  · rfl

lemma wsFrameRest_is_playing (s : WsState) (f : FrameInput) (ev1 : List WsEvent) :
    (wsFrameRest s f ev1).1.is_playing = s.is_playing := by
  unfold wsFrameRest
  split
  · rfl
  · split
    · exact wsBargeBlock_is_playing s f
    · rw [wsTurnCompletion_is_playing, wsBargeBlock_is_playing]

lemma wsStep_is_playing (s : WsState) (x : WsInput) :
    (wsStep s x).1.is_playing = s.is_playing := by
  cases x with
  | frame f =>
    show (wsFrameStep s f).1.is_playing = s.is_playing
    unfold wsFrameStep
    split
    · rw [wsFrameRest_is_playing]
      exact wsApplyStt_is_playing _ _
    · rw [wsFrameRest_is_playing]
      exact wsApplyStt_is_playing _ _
  | clientInterrupt n fin =>
    show (wsInterruptStep s fin).1.is_playing = s.is_playing
    unfold wsInterruptStep
    exact wsCancelTracked_is_playing _

/-- The loop never writes `session.is_playing`: running any inputs leaves it
as it started. -/
lemma wsRun_is_playing (inputs : List WsInput) :
    ∀ s : WsState, (wsRun s inputs).is_playing = s.is_playing := by
  induction inputs with
  | nil => intro s; rfl
  | cons x rest ih =>
    intro s
    show (wsRun (wsStep s x).1 rest).is_playing = s.is_playing
    rw [ih, wsStep_is_playing]

lemma wsRun_append (l1 l2 : List WsInput) :
    ∀ s : WsState, wsRun s (l1 ++ l2) = wsRun (wsRun s l1) l2 := by
  induction l1 with
  | nil => intro s; rfl
  | cons x rest ih => intro s; exact ih (wsStep s x).1

lemma wsStateAt_succ (inputs : List WsInput) (i : ℕ) (x : WsInput)
    (hx : inputs.get? i = Option.some x) :
    wsStateAt inputs (i+1) = (wsStep (wsStateAt inputs i) x).1 := by
  unfold wsStateAt
  rw [List.take_succ, ← List.get?_eq_getElem?, hx]
  show wsRun WsState.init (inputs.take i ++ [x]) = _
  rw [wsRun_append]
  rfl

lemma wsCancelTracked_events (s : WsState) :
    (wsCancelTracked s).2 = [] ∨
      ∃ id, (wsCancelTracked s).2 = [WsEvent.taskCancelled id] := by
  unfold wsCancelTracked
  split
  · split
    · exact Or.inr ⟨_, rfl⟩
    · exact Or.inl rfl
  · exact Or.inl rfl

lemma wsCancelTracked_not_mem (s : WsState) (id : ℕ)
    (h : s.agent_task = Option.some id) : id ∉ (wsCancelTracked s).1.live := by
  unfold wsCancelTracked
  rw [h]
  dsimp only
  split
  · simp [List.mem_filter]
  · rename_i h2
    intro hmem
    exact h2 (by simpa using hmem)

/-- The state produced by a confirmed barge-in fire (ws.py lines 446-487). -/
def fireState (s : WsState) : WsState :=
  { (wsCancelTracked s).1 with
      interruptions := (wsCancelTracked s).1.interruptions + 1,
      agent_task := Option.none, agent_speaking := false,
      barge_start_ts := Option.none, ai_speech_start_ts := Option.none }

/-- The events a confirmed barge-in fire emits, in order. -/
def fireEvents (s : WsState) : List WsEvent :=
  WsEvent.interrupt :: (wsCancelTracked s).2 ++ [WsEvent.stopAudio]

lemma wsBargeSpeech_interrupt (s : WsState) (f : FrameInput)
    (hfire : WsEvent.interrupt ∈ (wsBargeSpeech s f).2) :
    (∃ t, s.barge_start_ts = Option.some t ∧ 1/2 ≤ f.now - t) ∧
    wsBargeSpeech s f = (fireState s, fireEvents s) := by
  rcases hb : s.barge_start_ts with _ | t
  · simp only [wsBargeSpeech, hb] at hfire
    simp at hfire
  · simp only [wsBargeSpeech, hb] at hfire ⊢
    split at hfire
    · rename_i hcond
      rw [if_pos hcond]
      exact ⟨⟨t, rfl, hcond⟩, rfl⟩
    · simp at hfire

lemma wsBargeCheckSpeech_interrupt (s : WsState) (f : FrameInput)
    (hfire : WsEvent.interrupt ∈ (wsBargeCheckSpeech s f).2.1) :
    f.is_speech = true ∧
    (∃ t, s.barge_start_ts = Option.some t ∧ 1/2 ≤ f.now - t) ∧
    wsBargeCheckSpeech s f = (fireState s, fireEvents s, false) := by
  unfold wsBargeCheckSpeech at hfire ⊢
  split at hfire
  · rename_i hsp
    have h := wsBargeSpeech_interrupt s f hfire
    rw [if_pos hsp, h.2]
    exact ⟨hsp, h.1, rfl⟩
  · simp at hfire

lemma wsBargeBlock_interrupt (s : WsState) (f : FrameInput)
    (hfire : WsEvent.interrupt ∈ (wsBargeBlock s f).2.1) :
    f.is_speech = true ∧ s.agent_speaking = true ∧
    (∃ t, s.barge_start_ts = Option.some t ∧ 1/2 ≤ f.now - t) ∧
    (∀ o, s.ai_speech_start_ts = Option.some o → o ≠ 0 → 3/2 ≤ f.now - o) ∧
    wsBargeBlock s f = (fireState s, fireEvents s, false) := by
  unfold wsBargeBlock at hfire ⊢
  split at hfire
  · simp at hfire
  · rename_i hsp
    have hsp2 : s.agent_speaking = true := by
      cases h : s.agent_speaking
      · exact absurd h hsp
      · rfl
    rcases hai : s.ai_speech_start_ts with _ | o
    · rw [hai] at hfire
      dsimp only at hfire ⊢
      have h := wsBargeCheckSpeech_interrupt s f hfire
      rw [if_neg hsp, h.2.2]
      exact ⟨h.1, hsp2, h.2.1, by intro o ho; exact absurd ho (by simp), rfl⟩
    · rw [hai] at hfire
      dsimp only at hfire ⊢
      split at hfire
      · simp at hfire
      · rename_i hwin
        have h := wsBargeCheckSpeech_interrupt s f hfire
        rw [if_neg hsp, if_neg hwin, h.2.2]
        refine ⟨h.1, hsp2, h.2.1, ?_, rfl⟩
        intro o2 ho2 hne
        cases ho2
        rcases not_and_or.mp hwin with hc | hc
        · exact absurd hne (by simpa using hc)
        · exact not_lt.mp hc

lemma wsBargeSpeech_events (s : WsState) (f : FrameInput) :
    (wsBargeSpeech s f).2 = [] ∨ (wsBargeSpeech s f).2 = fireEvents s := by
  unfold wsBargeSpeech
  split
  · exact Or.inl rfl
  · split
    · exact Or.inr rfl
    · exact Or.inl rfl

lemma wsBargeCheckSpeech_events (s : WsState) (f : FrameInput) :
    (wsBargeCheckSpeech s f).2.1 = [] ∨ (wsBargeCheckSpeech s f).2.1 = fireEvents s := by
  unfold wsBargeCheckSpeech
  split
  · exact wsBargeSpeech_events s f
  · exact Or.inl rfl

lemma wsBargeBlock_events (s : WsState) (f : FrameInput) :
    (wsBargeBlock s f).2.1 = [] ∨ (wsBargeBlock s f).2.1 = fireEvents s := by
  unfold wsBargeBlock
  split
  · exact Or.inl rfl
  · split
    · split
      · exact Or.inl rfl
      · exact wsBargeCheckSpeech_events s f
    · exact wsBargeCheckSpeech_events s f

lemma wsBargeBlock_no_spawn (s : WsState) (f : FrameInput) (id : ℕ) :
    WsEvent.taskSpawned id ∉ (wsBargeBlock s f).2.1 := by
  rcases wsBargeBlock_events s f with h | h <;> rw [h]
  · simp
  · unfold fireEvents
    rcases wsCancelTracked_events s with h2 | ⟨id2, h2⟩ <;> simp [h2]

lemma wsTurnCompletion_no_interrupt (s : WsState) (f : FrameInput) :
    WsEvent.interrupt ∉ (wsTurnCompletion s f).2 := by
  unfold wsTurnCompletion
  split
  · split <;> simp
  · simp

lemma wsCancelTracked_interruptions (s : WsState) :
    (wsCancelTracked s).1.interruptions = s.interruptions := by
  unfold wsCancelTracked
  split
  · split <;> rfl
  · rfl

lemma wsTurnCompletion_nothing (s : WsState) (f : FrameInput)
    (h : f.result = CollectorResult.nothing) : wsTurnCompletion s f = (s, []) := by
  unfold wsTurnCompletion
  rw [h]

lemma wsBargeCheckSpeech_not_skip (s : WsState) (f : FrameInput) :
    (wsBargeCheckSpeech s f).2.2 = false := by
  unfold wsBargeCheckSpeech
  split <;> rfl

lemma wsBargeBlock_cases (s : WsState) (f : FrameInput) :
    (wsBargeBlock s f).2.2 = false ∨ wsBargeBlock s f = (s, [], true) := by
  unfold wsBargeBlock
  split
  · exact Or.inl rfl
  · split
    · split
      · exact Or.inr rfl
      · exact Or.inl (wsBargeCheckSpeech_not_skip s f)
    · exact Or.inl (wsBargeCheckSpeech_not_skip s f)

lemma wsFrameStep_eq (s0 : WsState) (f : FrameInput) :
    wsFrameStep s0 f = wsFrameRest (wsMid s0 f) f
      (if wsListenCond s0 f then [WsEvent.statusListening] else []) := by
  unfold wsFrameStep wsMid
  split <;> rfl

lemma wsMid_fields (s0 : WsState) (f : FrameInput) :
    (wsMid s0 f).agent_task = s0.agent_task ∧
    (wsMid s0 f).agent_speaking = s0.agent_speaking ∧
    (wsMid s0 f).barge_start_ts = s0.barge_start_ts ∧
    (wsMid s0 f).ai_speech_start_ts = s0.ai_speech_start_ts ∧
    (wsMid s0 f).interruptions = s0.interruptions := by
  unfold wsMid wsMidBase wsApplyFinished
  cases hst : f.stt_final <;>
    (dsimp only [wsApplyStt]; split <;> exact ⟨rfl, rfl, rfl, rfl, rfl⟩)

lemma wsFrameRest_interrupt (s : WsState) (f : FrameInput) (ev1 : List WsEvent)
    (hev1 : WsEvent.interrupt ∉ ev1)
    (hfire : WsEvent.interrupt ∈ (wsFrameRest s f ev1).2) :
    f.is_speech = true ∧ s.agent_speaking = true ∧
    (∃ t, s.barge_start_ts = Option.some t ∧ 1/2 ≤ f.now - t) ∧
    (∀ o, s.ai_speech_start_ts = Option.some o → o ≠ 0 → 3/2 ≤ f.now - o) ∧
    f.result ≠ CollectorResult.early ∧
    wsFrameRest s f ev1 =
      ((wsTurnCompletion (fireState s) f).1,
       ev1 ++ fireEvents s ++ (wsTurnCompletion (fireState s) f).2) := by
  unfold wsFrameRest at hfire ⊢
  split at hfire
  · exact absurd hfire hev1
  · rename_i hres
    split at hfire
    · rename_i hskip
      rcases wsBargeBlock_cases s f with hc | hc
      · rw [hc] at hskip
        exact absurd hskip (by simp)
      · rw [hc] at hfire
        rcases List.mem_append.mp hfire with h2 | h2
        · exact absurd h2 hev1
        · exact absurd h2 (by simp)
    · have hmem : WsEvent.interrupt ∈ (wsBargeBlock s f).2.1 := by
        rcases List.mem_append.mp hfire with h2 | h2
        · rcases List.mem_append.mp h2 with h3 | h3
          · exact absurd h3 hev1
          · exact h3
        · exact absurd h2 (wsTurnCompletion_no_interrupt _ f)
      have h := wsBargeBlock_interrupt s f hmem
      refine ⟨h.1, h.2.1, h.2.2.1, h.2.2.2.1, hres, ?_⟩
      rw [if_neg hres, h.2.2.2.2]
      simp

lemma wsInterruptStep_no_interrupt (s : WsState) (fin : List ℕ) :
    WsEvent.interrupt ∉ (wsInterruptStep s fin).2 := by
  unfold wsInterruptStep
  rcases wsCancelTracked_events (wsApplyFinished s fin) with h | ⟨id, h⟩ <;> simp [h]

/-- Complete characterization of a confirmed barge-in fire at one loop
iteration: the `interrupt` event is emitted only on a speech frame processed
while the agent is speaking, with the barge timer spanning at least
`BARGE_MIN_SPEECH = 0.5` s and outside the `BARGE_IGNORE_AFTER_TTS = 1.5` s
window after agent speech onset; the iteration then produces exactly the
barge-in state reset and the interrupt / cancellation / stop-audio events. -/
lemma wsStep_fire (s : WsState) (f : FrameInput)
    (hwf : wfInput (WsInput.frame f) = true)
    (hfire : WsEvent.interrupt ∈ (wsStep s (WsInput.frame f)).2) :
    f.is_speech = true ∧ s.agent_speaking = true ∧
    (∃ t, s.barge_start_ts = Option.some t ∧ 1/2 ≤ f.now - t) ∧
    (∀ o, s.ai_speech_start_ts = Option.some o → o ≠ 0 → 3/2 ≤ f.now - o) ∧
    wsStep s (WsInput.frame f) =
      (fireState (wsMid s f),
       (if wsListenCond s f then [WsEvent.statusListening] else []) ++
         fireEvents (wsMid s f)) := by
  rw [show wsStep s (WsInput.frame f) = wsFrameStep s f from rfl, wsFrameStep_eq]
    at hfire ⊢
  have hev1 : WsEvent.interrupt ∉
      (if wsListenCond s f then [WsEvent.statusListening] else []) := by
    split <;> simp
  have h := wsFrameRest_interrupt (wsMid s f) f _ hev1 hfire
  have hm := wsMid_fields s f
  have hres : f.result = CollectorResult.nothing := by
    rcases hr : f.result with _ | _ | u
    · rfl
    · exact absurd hr h.2.2.2.2.1
    · rw [wfInput] at hwf
      rw [hr] at hwf
      dsimp only at hwf
      rw [h.1] at hwf
      simp at hwf
  refine ⟨h.1, hm.2.1 ▸ h.2.1, hm.2.2.1 ▸ h.2.2.1, hm.2.2.2.1 ▸ h.2.2.2.1, ?_⟩
  rw [h.2.2.2.2.2, wsTurnCompletion_nothing _ f hres]
  simp

/-! ## Trace invariant for barge-in suppression (C3) -/

/-- Over the processed input prefix: `t` is the timestamp of an earlier frame
classified as speech, and every input from that frame to the end of the
prefix was a frame classified as speech. -/
def SpeechSince (pre : List WsInput) (t : ℚ) : Prop :=
  ∃ j g, pre.get? j = Option.some (WsInput.frame g) ∧ g.is_speech = true ∧
    g.now = t ∧
    ∀ k x, j ≤ k → pre.get? k = Option.some x → isSpeechFrame x = true

lemma speechSince_extend (pre : List WsInput) (t : ℚ) (x : WsInput)
    (h : SpeechSince pre t) (hx : isSpeechFrame x = true) :
    SpeechSince (pre ++ [x]) t := by
  obtain ⟨j, g, hj, hsp, ht, hall⟩ := h
  have hjlt : j < pre.length := by
    rcases List.get?_eq_some.mp hj with ⟨hlt, -⟩
    exact hlt
  refine ⟨j, g, ?_, hsp, ht, ?_⟩
  · rw [List.get?_append hjlt]
    exact hj
  · intro k y hk hky
    by_cases hlt : k < pre.length
    · exact hall k y hk (by rwa [List.get?_append hlt] at hky)
    · have hky2 : [x].get? (k - pre.length) = Option.some y := by
        rwa [List.get?_append_right (not_lt.mp hlt)] at hky
      have hk0 : k - pre.length = 0 := by
        rcases List.get?_eq_some.mp hky2 with ⟨hlt2, -⟩
        simp at hlt2
        exact hlt2
      rw [hk0] at hky2
      simp at hky2
      rw [← hky2]
      exact hx

lemma speechSince_new (pre : List WsInput) (g : FrameInput)
    (hsp : g.is_speech = true) :
    SpeechSince (pre ++ [WsInput.frame g]) g.now := by
  refine ⟨pre.length, g, List.get?_concat_length pre _, hsp, rfl, ?_⟩
  intro k y hk hky
  have hlen : k < pre.length + 1 := by
    rcases List.get?_eq_some.mp hky with ⟨hlt, -⟩
    simpa using hlt
  have hk2 : k = pre.length := by omega
  rw [hk2, List.get?_concat_length] at hky
  cases hky
  exact hsp

/-- The reachable-state invariant behind barge-in suppression:
while the agent is speaking, the speech-onset stamp exists (A1) and is a
positive `perf_counter` value (A2); and whenever the barge timer holds `t`,
the agent is speaking, `t` is at least `BARGE_IGNORE_AFTER_TTS` past the
onset, and speech has persisted since the frame stamped `t` (B). -/
def WsInv (pre : List WsInput) (s : WsState) : Prop :=
  (s.agent_speaking = true → s.ai_speech_start_ts ≠ Option.none) ∧
  (∀ o, s.ai_speech_start_ts = Option.some o → 0 < o) ∧
  (∀ t, s.barge_start_ts = Option.some t →
    s.agent_speaking = true ∧
    (∀ o, s.ai_speech_start_ts = Option.some o → 3/2 ≤ t - o) ∧
    SpeechSince pre t)

/-- Transport the invariant to a state with the same speaking / onset / barge
fields, when the new input is a speech frame whenever a barge timer runs. -/
lemma wsInv_carry (pre : List WsInput) (x : WsInput) (s s2 : WsState)
    (hinv : WsInv pre s)
    (hsp : s2.agent_speaking = s.agent_speaking)
    (hai : s2.ai_speech_start_ts = s.ai_speech_start_ts)
    (hbg : s2.barge_start_ts = s.barge_start_ts)
    (hx : s.barge_start_ts ≠ Option.none → isSpeechFrame x = true) :
    WsInv (pre ++ [x]) s2 := by
  refine ⟨?_, ?_, ?_⟩
  · intro h
    rw [hsp] at h
    rw [hai]
    exact hinv.1 h
  · intro o ho
    rw [hai] at ho
    exact hinv.2.1 o ho
  · intro t ht
    rw [hbg] at ht
    obtain ⟨h1, h2, h3⟩ := hinv.2.2 t ht
    refine ⟨by rw [hsp]; exact h1, by rw [hai]; exact h2, ?_⟩
    exact speechSince_extend pre t x h3 (hx (by rw [ht]; simp))

lemma wsBargeBlock_skip_inversion (s : WsState) (f : FrameInput)
    (h : (wsBargeBlock s f).2.2 = true) :
    ∃ o, s.ai_speech_start_ts = Option.some o ∧ o ≠ 0 ∧ f.now - o < 3/2 := by
  unfold wsBargeBlock at h
  split at h
  · simp at h
  · split at h
    · rename_i o heq
      split at h
      · rename_i hcond
        exact ⟨o, heq, hcond.1, hcond.2⟩
      · rw [wsBargeCheckSpeech_not_skip] at h
        exact absurd h (by simp)
    · rw [wsBargeCheckSpeech_not_skip] at h
      exact absurd h (by simp)

/-- Exhaustive outcomes of the barge-in block. -/
lemma wsBargeBlock_state_cases (s : WsState) (f : FrameInput) :
    wsBargeBlock s f = (s, [], true) ∨
    (s.agent_speaking = false ∧ wsBargeBlock s f = (s, [], false)) ∨
    (f.is_speech = true ∧ wsBargeBlock s f = (s, [], false)) ∨
    (f.is_speech = true ∧ s.agent_speaking = true ∧ s.barge_start_ts = Option.none ∧
      (∀ o, s.ai_speech_start_ts = Option.some o → o ≠ 0 → 3/2 ≤ f.now - o) ∧
      wsBargeBlock s f = ({ s with barge_start_ts := Option.some f.now }, [], false)) ∨
    (f.is_speech = false ∧
      wsBargeBlock s f = ({ s with barge_start_ts := Option.none }, [], false)) ∨
    (f.is_speech = true ∧ wsBargeBlock s f = (fireState s, fireEvents s, false)) := by
  unfold wsBargeBlock wsBargeCheckSpeech wsBargeSpeech
  split
  · rename_i hsp
    exact Or.inr (Or.inl ⟨hsp, rfl⟩)
  · rename_i hnsp
    have hsp2 : s.agent_speaking = true := by
      cases hq : s.agent_speaking
      · exact absurd hq hnsp
      · rfl
    split
    · rename_i o heq
      split
      · exact Or.inl rfl
      · rename_i hwin
        split
        · rename_i hspeech
          split
          · rename_i hbg
            refine Or.inr (Or.inr (Or.inr (Or.inl ⟨hspeech, hsp2, hbg, ?_, rfl⟩)))
            intro o2 ho2 hne
            rw [heq] at ho2
            cases ho2
            rcases not_and_or.mp hwin with hc | hc
            · exact absurd hne (by simpa using hc)
            · exact not_lt.mp hc
          · split
            · exact Or.inr (Or.inr (Or.inr (Or.inr (Or.inr ⟨hspeech, rfl⟩))))
            · exact Or.inr (Or.inr (Or.inl ⟨hspeech, rfl⟩))
        · rename_i hspeech
          refine Or.inr (Or.inr (Or.inr (Or.inr (Or.inl ⟨?_, rfl⟩))))
          cases hq : f.is_speech
          · rfl
          · exact absurd hq hspeech
    · rename_i hainone
      split
      · rename_i hspeech
        split
        · rename_i hbg
          refine Or.inr (Or.inr (Or.inr (Or.inl ⟨hspeech, hsp2, hbg, ?_, rfl⟩)))
          intro o2 ho2 hne
          rw [hainone] at ho2
          exact absurd ho2 (by simp)
        · split
          · exact Or.inr (Or.inr (Or.inr (Or.inr (Or.inr ⟨hspeech, rfl⟩))))
          · exact Or.inr (Or.inr (Or.inl ⟨hspeech, rfl⟩))
      · rename_i hspeech
        refine Or.inr (Or.inr (Or.inr (Or.inr (Or.inl ⟨?_, rfl⟩))))
        cases hq : f.is_speech
        · rfl
        · exact absurd hq hspeech

/-- Exhaustive outcomes of turn-completion detection. -/
lemma wsTurnCompletion_cases (s : WsState) (f : FrameInput) :
    wsTurnCompletion s f = (s, []) ∨
    wsTurnCompletion s f =
      ({ s with
          turn_count := s.turn_count + 1
          agent_task := Option.some s.next_id
          live := s.live ++ [s.next_id]
          next_id := s.next_id + 1
          agent_speaking := true
          ai_speech_start_ts := Option.some f.now
          current_transcript := ""
          first_speech_ts := Option.none
          barge_start_ts := Option.none },
       [WsEvent.statusThinking, WsEvent.taskSpawned s.next_id]) := by
  unfold wsTurnCompletion
  split
  · split
    · exact Or.inl rfl
    · exact Or.inr rfl
  · exact Or.inl rfl

/-- The state right after a TurnTask spawn satisfies the invariant: the agent
is speaking with a fresh positive onset stamp and no barge timer. -/
lemma wsInv_spawned (pre : List WsInput) (x : WsInput) (f : FrameInput)
    (base : WsState) (hposf : 0 < f.now) :
    WsInv (pre ++ [x])
      ({ base with
          turn_count := base.turn_count + 1
          agent_task := Option.some base.next_id
          live := base.live ++ [base.next_id]
          next_id := base.next_id + 1
          agent_speaking := true
          ai_speech_start_ts := Option.some f.now
          current_transcript := ""
          first_speech_ts := Option.none
          barge_start_ts := Option.none }) := by
  refine ⟨?_, ?_, ?_⟩
  · intro h
    simp
  · intro o ho
    have h2 : f.now = o := by simpa using ho
    rw [← h2]
    exact hposf
  · intro t ht
    exact absurd ht (by simp)

/-- One loop iteration preserves the barge-in invariant, provided the input
is well-formed, carries a positive `perf_counter` stamp, and is no earlier
than any frame already processed (`perf_counter` is monotonic). -/
lemma wsInv_step (pre : List WsInput) (s : WsState) (x : WsInput)
    (hinv : WsInv pre s) (hwf : wfInput x = true) (hpos : 0 < timeOf x)
    (hle : ∀ j g, pre.get? j = Option.some (WsInput.frame g) → g.now ≤ timeOf x) :
    WsInv (pre ++ [x]) (wsStep s x).1 := by
  cases x with
  | clientInterrupt n fin =>
    have h1 : (wsStep s (WsInput.clientInterrupt n fin)).1.agent_speaking = false := rfl
    have h2 : (wsStep s (WsInput.clientInterrupt n fin)).1.ai_speech_start_ts
        = Option.none := rfl
    have h3 : (wsStep s (WsInput.clientInterrupt n fin)).1.barge_start_ts
        = Option.none := rfl
    refine ⟨?_, ?_, ?_⟩
    · intro h
      rw [h1] at h
      exact absurd h (by simp)
    · intro o ho
      rw [h2] at ho
      exact absurd ho (by simp)
    · intro t ht
      rw [h3] at ht
      exact absurd ht (by simp)
  | frame f =>
    have hposf : 0 < f.now := hpos
    rw [show wsStep s (WsInput.frame f) = wsFrameStep s f from rfl, wsFrameStep_eq]
    obtain ⟨hmat, hmsp, hmbg, hmai, hmint⟩ := wsMid_fields s f
    have hinvm : WsInv pre (wsMid s f) := by
      refine ⟨?_, ?_, ?_⟩
      · intro h
        rw [hmsp] at h
        rw [hmai]
        exact hinv.1 h
      · intro o ho
        rw [hmai] at ho
        exact hinv.2.1 o ho
      · intro t ht
        rw [hmbg] at ht
        obtain ⟨a, b, c⟩ := hinv.2.2 t ht
        exact ⟨by rw [hmsp]; exact a, by rw [hmai]; exact b, c⟩
    unfold wsFrameRest
    split
    · rename_i hres
      have hxsp : isSpeechFrame (WsInput.frame f) = true := by
        have : wfInput (WsInput.frame f) =
            (match f.result with
             | CollectorResult.early => f.is_speech
             | CollectorResult.utter _ => !f.is_speech
             | CollectorResult.nothing => true) := rfl
        rw [this, hres] at hwf
        exact hwf
      exact wsInv_carry pre _ (wsMid s f) (wsMid s f) hinvm rfl rfl rfl (fun _ => hxsp)
    · rename_i hres
      split
      · rename_i hskip
        rcases wsBargeBlock_cases (wsMid s f) f with hc | hc
        · rw [hc] at hskip
          exact absurd hskip (by simp)
        · rw [hc]
          dsimp only
          refine ⟨hinvm.1, hinvm.2.1, ?_⟩
          intro t ht
          obtain ⟨ha, hb, hss⟩ := hinvm.2.2 t ht
          obtain ⟨o, hobo, hone, hwindow⟩ := wsBargeBlock_skip_inversion (wsMid s f) f
            (by rw [hc])
          obtain ⟨j, g, hj, hgsp, hgt, hall⟩ := hss
          have hlef : t ≤ f.now := by
            rw [← hgt]
            exact hle j g hj
          have h32 : 3/2 ≤ t - o := hb o hobo
          exact absurd hwindow (not_lt.mpr (by linarith))
      · rename_i hskip
        have hturn := fun (b : WsState) => wsTurnCompletion_cases b f
        rcases wsBargeBlock_state_cases (wsMid s f) f with hc | ⟨hspf, hc⟩ |
          ⟨hxsp, hc⟩ | ⟨hxsp, hsp2, hbgn, hwin, hc⟩ | ⟨hxs, hc⟩ | ⟨hxsp, hc⟩
        · rw [hc] at hskip
          exact absurd rfl hskip
        · rw [hc]
          dsimp only
          rcases hturn (wsMid s f) with ht | ht <;> rw [ht]
          · dsimp only
            refine ⟨hinvm.1, hinvm.2.1, ?_⟩
            intro t ht2
            obtain ⟨ha, -, -⟩ := hinvm.2.2 t ht2
            rw [hspf] at ha
            exact absurd ha (by simp)
          · exact wsInv_spawned pre _ f (wsMid s f) hposf
        · rw [hc]
          dsimp only
          rcases hturn (wsMid s f) with ht | ht <;> rw [ht]
          · dsimp only
            exact wsInv_carry pre _ (wsMid s f) (wsMid s f) hinvm rfl rfl rfl
              (fun _ => hxsp)
          · exact wsInv_spawned pre _ f (wsMid s f) hposf
        · rw [hc]
          dsimp only
          rcases hturn { wsMid s f with barge_start_ts := Option.some f.now } with
            ht | ht <;> rw [ht]
          · dsimp only
            refine ⟨?_, ?_, ?_⟩
            · intro h
              exact hinvm.1 h
            · intro o ho
              exact hinvm.2.1 o ho
            · intro t ht2
              have ht3 : f.now = t := by simpa using ht2
              refine ⟨hsp2, ?_, ?_⟩
              · intro o ho
                have hzo : 0 < o := hinvm.2.1 o ho
                rw [← ht3]
                exact hwin o ho (by linarith)
              · rw [← ht3]
                exact speechSince_new pre f hxsp
          · exact wsInv_spawned pre _ f _ hposf
        · rw [hc]
          dsimp only
          rcases hturn { wsMid s f with barge_start_ts := Option.none } with
            ht | ht <;> rw [ht]
          · dsimp only
            refine ⟨?_, ?_, ?_⟩
            · intro h
              exact hinvm.1 h
            · intro o ho
              exact hinvm.2.1 o ho
            · intro t ht2
              exact absurd ht2 (by simp)
          · exact wsInv_spawned pre _ f _ hposf
        · rw [hc]
          dsimp only
          rcases hturn (fireState (wsMid s f)) with ht | ht <;> rw [ht]
          · dsimp only
            refine ⟨?_, ?_, ?_⟩
            · intro h
              exact absurd h (by simp [fireState])
            · intro o ho
              exact absurd ho (by simp [fireState])
            · intro t ht2
              exact absurd ht2 (by simp [fireState])
          · exact wsInv_spawned pre _ f _ hposf

/-- The invariant holds at the start of every iteration of any run from the
fresh connection state. -/
lemma wsInv_at (inputs : List WsInput)
    (hwf : ∀ x ∈ inputs, wfInput x = true)
    (hmono : List.Pairwise (fun a b => timeOf a ≤ timeOf b) inputs)
    (hpos : ∀ x ∈ inputs, 0 < timeOf x) :
    ∀ n, WsInv (inputs.take n) (wsStateAt inputs n) := by
  intro n
  induction n with
  | zero =>
    refine ⟨?_, ?_, ?_⟩
    · intro h
      exact absurd h (by simp [wsStateAt, wsRun, WsState.init])
    · intro o ho
      exact absurd ho (by simp [wsStateAt, wsRun, WsState.init])
    · intro t ht
      exact absurd ht (by simp [wsStateAt, wsRun, WsState.init])
  | succ n ih =>
    cases hx : inputs.get? n with
    | none =>
      have hlen : inputs.length ≤ n := by
        rcases lt_or_ge n inputs.length with h | h
        · rw [List.get?_eq_get h] at hx
          simp at hx
        · exact h
      have ht1 : inputs.take (n+1) = inputs.take n := by
        rw [List.take_of_length_le hlen, List.take_of_length_le (by omega)]
      have ht2 : wsStateAt inputs (n+1) = wsStateAt inputs n := by
        unfold wsStateAt
        rw [ht1]
      rw [ht1, ht2]
      exact ih
    | some x =>
      have hmem : x ∈ inputs := List.get?_mem hx
      have hnlt : n < inputs.length := by
        rcases List.get?_eq_some.mp hx with ⟨hlt, -⟩
        exact hlt
      have ht1 : inputs.take (n+1) = inputs.take n ++ [x] := by
        rw [List.take_succ, ← List.get?_eq_getElem?, hx]
        rfl
      rw [ht1, wsStateAt_succ inputs n x hx]
      refine wsInv_step _ _ _ ih (hwf x hmem) (hpos x hmem) ?_
      intro j g hj
      have hjlt : j < (inputs.take n).length := by
        rcases List.get?_eq_some.mp hj with ⟨hlt, -⟩
        exact hlt
      have hjn : j < n := by
        rw [List.length_take] at hjlt
        omega
      have hj2 : inputs.get? j = Option.some (WsInput.frame g) := by
        rwa [List.get?_take hjn] at hj
      have hp := List.pairwise_iff_get.mp hmono ⟨j, by omega⟩ ⟨n, hnlt⟩
        (by simpa using hjn)
      have e1 : inputs.get ⟨j, by omega⟩ = WsInput.frame g := by
        have hg := List.get?_eq_get (l := inputs) (n := j) (by omega)
        rw [hg] at hj2
        exact Option.some.inj hj2.symm |>.symm
      have e2 : inputs.get ⟨n, hnlt⟩ = x := by
        have hg := List.get?_eq_get (l := inputs) (n := n) hnlt
        rw [hg] at hx
        exact Option.some.inj hx.symm |>.symm
      rw [e1, e2] at hp
      exact hp

lemma wsEventsAt_mem (inputs : List WsInput) (i : ℕ) (e : WsEvent)
    (h : e ∈ wsEventsAt inputs i) :
    ∃ x, inputs.get? i = Option.some x ∧
      e ∈ (wsStep (wsStateAt inputs i) x).2 := by
  unfold wsEventsAt at h
  cases hx : inputs.get? i with
  | none =>
    rw [hx] at h
    simp at h
  | some x =>
    rw [hx] at h
    exact ⟨x, rfl, h⟩

/-- C3: barge-in suppression.  In any run of the orchestrator loop from the
fresh connection state — over inputs that are collector-consistent
(`wfInput`), time-monotone and positively timestamped, as `time.perf_counter`
guarantees — if iteration `i` fires a barge-in (emits the interrupt event),
then (a) the firing frame is at least `BARGE_IGNORE_AFTER_TTS = 1.5` s past
the recorded agent-speech-onset stamp `ai_speech_start_ts`, and (b) there is
an earlier frame, classified as speech, at least `BARGE_MIN_SPEECH = 0.5` s
before the firing frame, such that every input from it up to and including
the firing frame is a frame classified as speech — i.e. renewed user speech
persisted for at least 0.5 s, sampled at every processed frame. -/
theorem barge_in_suppression
    (inputs : List WsInput) (i : ℕ)
    (hwf : ∀ x ∈ inputs, wfInput x = true)
    (hmono : List.Pairwise (fun a b => timeOf a ≤ timeOf b) inputs)
    (hpos : ∀ x ∈ inputs, 0 < timeOf x)
    (hfire : WsEvent.interrupt ∈ wsEventsAt inputs i) :
    ∃ f, inputs.get? i = Option.some (WsInput.frame f) ∧
      (∃ o, (wsStateAt inputs i).ai_speech_start_ts = Option.some o ∧
        3/2 ≤ f.now - o) ∧
      (∃ j g, j < i ∧ inputs.get? j = Option.some (WsInput.frame g) ∧
        g.is_speech = true ∧ 1/2 ≤ f.now - g.now ∧
        ∀ k x, j ≤ k → k ≤ i → inputs.get? k = Option.some x →
          isSpeechFrame x = true) := by
  obtain ⟨x, hx, hmem⟩ := wsEventsAt_mem inputs i _ hfire
  cases x with
  | clientInterrupt n fin =>
    exact absurd hmem (wsInterruptStep_no_interrupt _ _)
  | frame f =>
    have hinv := wsInv_at inputs hwf hmono hpos i
    obtain ⟨hfsp, hsp, ⟨t, hbg, hht⟩, hwin, -⟩ :=
      wsStep_fire (wsStateAt inputs i) f (hwf _ (List.get?_mem hx)) hmem
    refine ⟨f, hx, ?_, ?_⟩
    · have hai := hinv.1 hsp
      cases hao : (wsStateAt inputs i).ai_speech_start_ts with
      | none => exact absurd hao hai
      | some o =>
        have hopos := hinv.2.1 o hao
        exact ⟨o, rfl, hwin o hao (by linarith)⟩
    · obtain ⟨-, -, hss⟩ := hinv.2.2 t hbg
      obtain ⟨j, g, hj, hgsp, hgt, hall⟩ := hss
      have hjlt : j < (inputs.take i).length := by
        rcases List.get?_eq_some.mp hj with ⟨hlt, -⟩
        exact hlt
      have hji : j < i := by
        rw [List.length_take] at hjlt
        omega
      refine ⟨j, g, hji, by rwa [List.get?_take hji] at hj, hgsp,
        by rw [hgt]; exact hht, ?_⟩
      intro k y hk hki hky
      rcases lt_or_eq_of_le hki with hlt | heqk
      · refine hall k y hk ?_
        rwa [List.get?_take hlt]
      · rw [heqk] at hky
        have hyf : y = WsInput.frame f := by
          rw [hky] at hx
          exact Option.some.inj hx
        rw [hyf]
        exact hfsp

/-- C4: actions of a confirmed barge-in.  If iteration `i` of a run fires a
barge-in, then within that iteration the interrupt event precedes the
stop-audio event; the interruption metric is incremented by one; the loop is
reset to listening (`agent_speaking = false`, no tracked task) with
`session.is_playing = false`; the previously tracked TurnTask has been
cancelled and awaited (it is no longer live); and no TurnTask is spawned in
that iteration — the utterance that triggered the barge-in can only be
accepted as a new turn at a strictly later iteration. -/
theorem barge_in_actions (inputs : List WsInput) (i : ℕ)
    (hwf : ∀ x ∈ inputs, wfInput x = true)
    (hfire : WsEvent.interrupt ∈ wsEventsAt inputs i) :
    (∃ l1 l2, wsEventsAt inputs i =
      l1 ++ WsEvent.interrupt :: l2 ++ [WsEvent.stopAudio]) ∧
    (wsStateAt inputs (i+1)).interruptions
      = (wsStateAt inputs i).interruptions + 1 ∧
    (wsStateAt inputs (i+1)).agent_speaking = false ∧
    (wsStateAt inputs (i+1)).agent_task = Option.none ∧
    (wsStateAt inputs (i+1)).is_playing = false ∧
    (∀ id, (wsStateAt inputs i).agent_task = Option.some id →
      id ∉ (wsStateAt inputs (i+1)).live) ∧
    (∀ id, WsEvent.taskSpawned id ∉ wsEventsAt inputs i) := by
  obtain ⟨x, hx, hmem⟩ := wsEventsAt_mem inputs i _ hfire
  have hev : wsEventsAt inputs i = (wsStep (wsStateAt inputs i) x).2 := by
    unfold wsEventsAt
    rw [hx]
  have hst : wsStateAt inputs (i+1) = (wsStep (wsStateAt inputs i) x).1 :=
    wsStateAt_succ inputs i x hx
  cases x with
  | clientInterrupt n fin =>
    exact absurd hmem (wsInterruptStep_no_interrupt _ _)
  | frame f =>
    obtain ⟨hfsp, hsp, -, -, heq⟩ :=
      wsStep_fire (wsStateAt inputs i) f (hwf _ (List.get?_mem hx)) hmem
    obtain ⟨hmat, hmsp, hmbg, hmai, hmint⟩ := wsMid_fields (wsStateAt inputs i) f
    refine ⟨?_, ?_, ?_, ?_, ?_, ?_, ?_⟩
    · refine ⟨(if wsListenCond (wsStateAt inputs i) f
          then [WsEvent.statusListening] else []),
        (wsCancelTracked (wsMid (wsStateAt inputs i) f)).2, ?_⟩
      rw [hev, heq]
      dsimp only
      simp [fireEvents]
    · rw [hst, heq]
      show (wsCancelTracked (wsMid (wsStateAt inputs i) f)).1.interruptions + 1 = _
      rw [wsCancelTracked_interruptions, hmint]
    · rw [hst, heq]
      rfl
    · rw [hst, heq]
      rfl
    · have h := wsRun_is_playing (inputs.take (i+1)) WsState.init
      exact h
    · intro id hid
      rw [hst, heq]
      show id ∉ (wsCancelTracked (wsMid (wsStateAt inputs i) f)).1.live
      exact wsCancelTracked_not_mem _ id (by rw [hmat]; exact hid)
    · intro id
      rw [hev, heq]
      dsimp only
      intro hmem2
      rcases List.mem_append.mp hmem2 with h2 | h2
      · revert h2
        split <;> simp
      · rcases wsCancelTracked_events (wsMid (wsStateAt inputs i) f) with hc | ⟨id2, hc⟩ <;>
          simp [fireEvents, hc] at h2

/-- Recognizer for TurnTask-spawn markers among loop events. -/
def isSpawnEvent : WsEvent → Bool
  | WsEvent.taskSpawned _ => true
  | _ => false

lemma fireEvents_no_spawn (s : WsState) :
    (fireEvents s).filter isSpawnEvent = [] := by
  rcases wsCancelTracked_events s with hc | ⟨id2, hc⟩ <;>
    simp [fireEvents, hc, isSpawnEvent]

lemma wsFrameRest_events_cases (s : WsState) (f : FrameInput) (ev1 : List WsEvent) :
    (wsFrameRest s f ev1).2 = ev1 ∨
    (wsFrameRest s f ev1).2 = ev1 ++ (wsBargeBlock s f).2.1 ∨
    (wsFrameRest s f ev1).2 =
      ev1 ++ (wsBargeBlock s f).2.1 ++ (wsTurnCompletion (wsBargeBlock s f).1 f).2 := by
  unfold wsFrameRest
  split
  · exact Or.inl rfl
  · split
    · exact Or.inr (Or.inl rfl)
    · exact Or.inr (Or.inr rfl)

lemma wsTurnCompletion_spawn_count (s : WsState) (f : FrameInput) :
    ((wsTurnCompletion s f).2.filter isSpawnEvent).length ≤ 1 := by
  rcases wsTurnCompletion_cases s f with hc | hc <;> rw [hc] <;>
    simp [isSpawnEvent]

/-- C2 amended: per-iteration task discipline.  Each loop iteration starts at
most one TurnTask; and an iteration that fires a barge-in leaves no tracked
task, spawns no task, and has cancelled-and-awaited the previously tracked
task if it was still live.  (The part of C2 that the counterexample refutes —
that at most one TurnTask is ever alive — is dropped: the turn-completion
path overwrites `agent_task` without cancelling a live predecessor.) -/
theorem single_turn_task_tracking (s : WsState) (x : WsInput)
    (hwf : wfInput x = true) :
    ((wsStep s x).2.filter isSpawnEvent).length ≤ 1 ∧
    (WsEvent.interrupt ∈ (wsStep s x).2 →
      (wsStep s x).1.agent_task = Option.none ∧
      (∀ id, WsEvent.taskSpawned id ∉ (wsStep s x).2) ∧
      (∀ id, s.agent_task = Option.some id → id ∉ (wsStep s x).1.live)) := by
  constructor
  · cases x with
    | clientInterrupt n fin =>
      show (((wsInterruptStep s fin).2).filter isSpawnEvent).length ≤ 1
      unfold wsInterruptStep
      rcases wsCancelTracked_events (wsApplyFinished s fin) with hc | ⟨id2, hc⟩ <;>
        simp [hc, isSpawnEvent]
    | frame f =>
      show (((wsFrameStep s f).2).filter isSpawnEvent).length ≤ 1
      rw [wsFrameStep_eq]
      have hev1 : ((if wsListenCond s f then [WsEvent.statusListening]
          else []).filter isSpawnEvent) = [] := by
        split <;> simp [isSpawnEvent]
      rcases wsFrameRest_events_cases (wsMid s f) f
        (if wsListenCond s f then [WsEvent.statusListening] else []) with
        hc | hc | hc <;> rw [hc]
      · simp [hev1]
      · rcases wsBargeBlock_events (wsMid s f) f with hb | hb <;> rw [hb]
        · simp [hev1]
        · simp [List.filter_append, hev1, fireEvents_no_spawn]
      · rcases wsBargeBlock_events (wsMid s f) f with hb | hb <;> rw [hb]
        · simp only [List.filter_append, hev1, List.filter_nil, List.nil_append,
            List.append_nil]
          exact wsTurnCompletion_spawn_count _ f
        · simp only [List.filter_append, hev1, fireEvents_no_spawn,
            List.nil_append, List.append_nil]
          exact wsTurnCompletion_spawn_count _ f
  · intro hfire
    cases x with
    | clientInterrupt n fin =>
      exact absurd hfire (wsInterruptStep_no_interrupt _ _)
    | frame f =>
      obtain ⟨-, -, -, -, heq⟩ := wsStep_fire s f hwf hfire
      obtain ⟨hmat, -, -, -, -⟩ := wsMid_fields s f
      refine ⟨by rw [heq]; rfl, ?_, ?_⟩
      · intro id
        rw [heq]
        dsimp only
        intro hmem2
        rcases List.mem_append.mp hmem2 with h2 | h2
        · revert h2
          split <;> simp
        · rcases wsCancelTracked_events (wsMid s f) with hc | ⟨id2, hc⟩ <;>
            simp [fireEvents, hc] at h2
      · intro id hid
        rw [heq]
        show id ∉ (wsCancelTracked (wsMid s f)).1.live
        exact wsCancelTracked_not_mem _ id (by rw [hmat]; exact hid)

/-! ## Lemmas about the turn pipeline -/

/-- Inside the streaming loop the only session effects are metric updates:
no history write and no `is_playing` write happens before the loop ends. -/
lemma turnLoop_effects (outcome : TurnOutcome) :
    ∀ (sentences : List (String × Bool)) (k : ℕ) (full : String) (first : Bool),
      ∀ e ∈ (turnLoop outcome sentences k full first).2.1,
        e = SessEff.updateMetrics := by
  intro sentences
  induction sentences with
  | nil =>
    intro k full first e he
    unfold turnLoop at he
    split at he
    · simp at he
    · split at he
      · simp at he
      · simp at he
  | cons p rest ih =>
    obtain ⟨sentence, ttsOk⟩ := p
    intro k full first e he
    unfold turnLoop at he
    split at he
    · simp at he
    · split at he
      · simp at he
      · dsimp only at he
        split at he
        · exact ih _ _ _ e he
        · split at he
          · exact ih _ _ _ e he
          · rcases List.mem_append.mp he with h2 | h2
            · revert h2
              split
              · intro h2
                simpa using h2
              · intro h2
                simp at h2
            · exact ih _ _ _ e h2

/-- A turn that consumes the whole stream accumulates every non-blank
sentence (TTS success or not) into `full_response` and finishes. -/
lemma turnLoop_ok :
    ∀ (sentences : List (String × Bool)) (k : ℕ) (full : String) (first : Bool),
      (turnLoop TurnOutcome.ok sentences k full first).2.2.1 =
        sentences.foldl (fun acc q => if strippedEmpty q.1 then acc
          else acc ++ q.1 ++ " ") full ∧
      (turnLoop TurnOutcome.ok sentences k full first).2.2.2
        = TurnEnd.finished := by
  intro sentences
  induction sentences with
  | nil =>
    intro k full first
    unfold turnLoop
    rw [if_neg (by simp), if_neg (by simp)]
    exact ⟨rfl, rfl⟩
  | cons p rest ih =>
    obtain ⟨sentence, ttsOk⟩ := p
    intro k full first
    unfold turnLoop
    rw [if_neg (by simp), if_neg (by simp)]
    dsimp only
    split
    · rename_i hstr
      rw [List.foldl_cons]
      dsimp only
      rw [if_pos hstr]
      exact ih _ _ _
    · rename_i hstr
      rw [List.foldl_cons]
      dsimp only
      rw [if_neg hstr]
      split
      · exact ih _ _ _
      · exact ⟨(ih _ _ _).1, (ih _ _ _).2⟩

/-- A cancellation delivered at any await of the streaming loop makes the
loop end as cancelled. -/
lemma turnLoop_cancel (k : ℕ) :
    ∀ (sentences : List (String × Bool)) (k0 : ℕ) (full : String) (first : Bool),
      k0 ≤ k → k ≤ k0 + sentences.length →
      (turnLoop (TurnOutcome.cancelAt k) sentences k0 full first).2.2.2
        = TurnEnd.cancelled := by
  intro sentences
  induction sentences with
  | nil =>
    intro k0 full first h1 h2
    have hk : k = k0 := by
      simp at h2
      omega
    unfold turnLoop
    rw [if_pos (by rw [hk])]
  | cons p rest ih =>
    obtain ⟨sentence, ttsOk⟩ := p
    intro k0 full first h1 h2
    by_cases hk : k = k0
    · unfold turnLoop
      rw [if_pos (by rw [hk])]
    · have h1b : k0 + 1 ≤ k := by omega
      have h2b : k ≤ (k0 + 1) + rest.length := by
        simp at h2
        omega
      unfold turnLoop
      rw [if_neg (by simpa using hk), if_neg (by simp)]
      dsimp only
      split
      · exact ih _ _ _ h1b h2b
      · split
        · exact ih _ _ _ h1b h2b
        · exact ih _ _ _ h1b h2b

/-- A provider error raised at any await of the streaming loop makes the
loop end as errored. -/
lemma turnLoop_error (k : ℕ) :
    ∀ (sentences : List (String × Bool)) (k0 : ℕ) (full : String) (first : Bool),
      k0 ≤ k → k ≤ k0 + sentences.length →
      (turnLoop (TurnOutcome.errorAt k) sentences k0 full first).2.2.2
        = TurnEnd.errored := by
  intro sentences
  induction sentences with
  | nil =>
    intro k0 full first h1 h2
    have hk : k = k0 := by
      simp at h2
      omega
    unfold turnLoop
    rw [if_neg (by simp), if_pos (by rw [hk])]
  | cons p rest ih =>
    obtain ⟨sentence, ttsOk⟩ := p
    intro k0 full first h1 h2
    by_cases hk : k = k0
    · unfold turnLoop
      rw [if_neg (by simp), if_pos (by rw [hk])]
    · have h1b : k0 + 1 ≤ k := by omega
      have h2b : k ≤ (k0 + 1) + rest.length := by
        simp at h2
        omega
      unfold turnLoop
      rw [if_neg (by simp), if_neg (by simpa using hk)]
      dsimp only
      split
      · exact ih _ _ _ h1b h2b
      · split
        · exact ih _ _ _ h1b h2b
        · exact ih _ _ _ h1b h2b

/-- `process_turn` never writes `session.is_playing`: no path of the
pipeline ever emits a `setPlaying` session effect (sessions.py touches the
flag only in `__init__` and `remove_session`). -/
lemma processTurn_no_setPlaying (text : String) (sentences : List (String × Bool))
    (o : TurnOutcome) (b : Bool) :
    SessEff.setPlaying b ∉ (processTurn text sentences o).effects := by
  unfold processTurn
  split <;> intro hmem
  · rcases List.mem_append.mp hmem with h2 | h2
    · have := turnLoop_effects o sentences 0 "" true _ h2
      simp at this
    · simp at h2
  · have := turnLoop_effects o sentences 0 "" true _ hmem
    simp at this
  · have := turnLoop_effects o sentences 0 "" true _ hmem
    simp at this

/-- C9: conversation history is written only by a turn that runs to
completion.  A TurnTask cancelled mid-turn (at any await of the streaming
loop, i.e. `k ≤ sentences.length` — e.g. by barge-in) leaves the history
unchanged: neither the user transcript nor the partially generated assistant
text is appended; the same holds for a provider error.  A completed turn
appends exactly the (user, assistant) pair, in that order, with the
assistant content being the stripped accumulated response. -/
theorem turn_history_only_on_completion (text : String)
    (sentences : List (String × Bool)) :
    (∀ k, k ≤ sentences.length →
      historyOps (processTurn text sentences (TurnOutcome.cancelAt k)) = []) ∧
    (∀ k, k ≤ sentences.length →
      historyOps (processTurn text sentences (TurnOutcome.errorAt k)) = []) ∧
    historyOps (processTurn text sentences TurnOutcome.ok) =
      [SessEff.addHistory "user" text,
       SessEff.addHistory "assistant" (pyStrip (fullResponseOf sentences))] := by
  have hfilter : ∀ outcome : TurnOutcome,
      ((turnLoop outcome sentences 0 "" true).2.1).filter
        (fun e => match e with
          | SessEff.addHistory _ _ => true
          | _ => false) = [] := by
    intro outcome
    rw [List.filter_eq_nil]
    intro e he
    rw [turnLoop_effects outcome sentences 0 "" true e he]
    simp
  refine ⟨?_, ?_, ?_⟩
  · intro k hk
    have hend := turnLoop_cancel k sentences 0 "" true (by omega) (by simpa using hk)
    unfold historyOps processTurn
    rw [hend]
    exact hfilter _
  · intro k hk
    have hend := turnLoop_error k sentences 0 "" true (by omega) (by simpa using hk)
    unfold historyOps processTurn
    rw [hend]
    exact hfilter _
  · have hok := turnLoop_ok sentences 0 "" true
    unfold historyOps processTurn
    rw [hok.2]
    dsimp only
    rw [List.filter_append, hfilter TurnOutcome.ok, hok.1]
    rfl

/-- Witness for C9: a one-sentence turn cancelled at the final stream await
writes no history. -/
theorem turn_history_only_on_completion_witness :
    historyOps (processTurn "hi" [("Hello.", true)] (TurnOutcome.cancelAt 1)) = [] :=
  (turn_history_only_on_completion "hi" [("Hello.", true)]).1 1 (by decide)

/-- Claim C2 as stated is false: more than one TurnTask can be alive at once.
Concrete run: a first utterance ("hi", closing at t=10) spawns TurnTask 0;
while task 0 is still running (it never appears in any `finished` input), a
second utterance ("again", closing at t=20, outside the barge-ignore window,
on a silence frame so no barge-in can fire) reaches the turn-completion path,
which spawns TurnTask 1 without cancelling task 0 (ws.py lines 493-541 never
cancel).  Both tasks are then alive. -/
theorem two_live_turn_tasks_counterexample :
    ¬ (∀ inputs : List WsInput, (wsRun WsState.init inputs).live.length ≤ 1) := by
  intro h
  have h2 := h
    [WsInput.frame ⟨false, CollectorResult.utter [], 10, [], Option.some "hi"⟩,
     WsInput.frame ⟨false, CollectorResult.utter [], 20, [], Option.some "again"⟩]
  norm_num [wsRun, wsStep, wsFrameStep, wsListenCond, wsMidBase, wsApplyStt,
    wsApplyFinished, wsFrameRest, wsBargeBlock, wsBargeCheckSpeech, wsBargeSpeech,
    wsCancelTracked, wsTurnCompletion, WsState.init,
    show ¬ (CollectorResult.utter ([] : List ℚ) = CollectorResult.early) from by simp,
    show strippedEmpty "hi" = false from by decide,
    show strippedEmpty "again" = false from by decide] at h2

/-- Witness for C2 amended: a plain silence frame on a fresh connection
spawns at most one task (here: none). -/
theorem single_turn_task_tracking_witness :
    ((wsStep WsState.init
      (WsInput.frame ⟨false, CollectorResult.nothing, 1, [],
        Option.none⟩)).2.filter isSpawnEvent).length ≤ 1 :=
  (single_turn_task_tracking WsState.init
    (WsInput.frame ⟨false, CollectorResult.nothing, 1, [], Option.none⟩)
    (by decide)).1

/-- C1 is a code bug: `session.is_playing` is never set to true.  The only
writes in the repository are `__init__` (False, sessions.py line 24) and
`remove_session` (False, line 102); dashboard.py renders "speaking"/"idle"
and counts active sessions from this flag, so the pipeline was clearly meant
to set it.  Formally: (1) the orchestrator loop never changes `is_playing`;
(2) no `process_turn` path emits an `is_playing` write; (3) at the failing
input — a session whose spawned TurnTask is alive (here after one closed
utterance) — `is_playing` is still false; and (4) a completed TurnTask does
stream audio bytes, so "a TurnTask is actively streaming audio while
`is_playing` is false" is reachable, refuting the claimed biconditional. -/
theorem is_playing_never_set :
    (∀ (s : WsState) (inputs : List WsInput),
      (wsRun s inputs).is_playing = s.is_playing) ∧
    (∀ (text : String) (sentences : List (String × Bool)) (o : TurnOutcome)
      (b : Bool), SessEff.setPlaying b ∉ (processTurn text sentences o).effects) ∧
    ((wsRun WsState.init
        [WsInput.frame ⟨false, CollectorResult.utter [], 10, [],
          Option.some "hi"⟩]).live = [0] ∧
     (wsRun WsState.init
        [WsInput.frame ⟨false, CollectorResult.utter [], 10, [],
          Option.some "hi"⟩]).is_playing = false) ∧
    TurnEvent.audioBytes "Hello." ∈
      (processTurn "hi" [("Hello.", true)] TurnOutcome.ok).events := by
  refine ⟨fun s inputs => wsRun_is_playing inputs s,
    processTurn_no_setPlaying, ⟨?_, wsRun_is_playing _ _⟩, ?_⟩
  · norm_num [wsRun, wsStep, wsFrameStep, wsListenCond, wsMidBase, wsApplyStt,
      wsApplyFinished, wsFrameRest, wsBargeBlock, wsBargeCheckSpeech,
      wsBargeSpeech, wsCancelTracked, wsTurnCompletion, WsState.init,
      show ¬ (CollectorResult.utter ([] : List ℚ) = CollectorResult.early)
        from by simp,
      show strippedEmpty "hi" = false from by decide]
  · decide

/-- Witness for C3: a concrete run — turn spawned at t=10, renewed speech at
t=12 (past the 1.5 s ignore window), sustained speech firing the barge-in at
t=13 — satisfies the suppression theorem's hypotheses and conclusion. -/
theorem barge_in_suppression_witness :
    ∃ f, ([WsInput.frame ⟨false, CollectorResult.utter [], 10, [],
            Option.some "hi"⟩,
          WsInput.frame ⟨true, CollectorResult.nothing, 12, [], Option.none⟩,
          WsInput.frame ⟨true, CollectorResult.nothing, 13, [], Option.none⟩] :
            List WsInput).get? 2 = Option.some (WsInput.frame f) ∧
      (∃ o, (wsStateAt
          [WsInput.frame ⟨false, CollectorResult.utter [], 10, [],
            Option.some "hi"⟩,
           WsInput.frame ⟨true, CollectorResult.nothing, 12, [], Option.none⟩,
           WsInput.frame ⟨true, CollectorResult.nothing, 13, [], Option.none⟩]
          2).ai_speech_start_ts = Option.some o ∧ 3/2 ≤ f.now - o) ∧
      (∃ j g, j < 2 ∧
        ([WsInput.frame ⟨false, CollectorResult.utter [], 10, [],
            Option.some "hi"⟩,
          WsInput.frame ⟨true, CollectorResult.nothing, 12, [], Option.none⟩,
          WsInput.frame ⟨true, CollectorResult.nothing, 13, [], Option.none⟩] :
            List WsInput).get? j = Option.some (WsInput.frame g) ∧
        g.is_speech = true ∧ 1/2 ≤ f.now - g.now ∧
        ∀ k x, j ≤ k → k ≤ 2 →
          ([WsInput.frame ⟨false, CollectorResult.utter [], 10, [],
              Option.some "hi"⟩,
            WsInput.frame ⟨true, CollectorResult.nothing, 12, [], Option.none⟩,
            WsInput.frame ⟨true, CollectorResult.nothing, 13, [], Option.none⟩] :
              List WsInput).get? k = Option.some x →
          isSpeechFrame x = true) :=
  barge_in_suppression _ 2 (by decide)
    (by norm_num [List.pairwise_cons, timeOf])
    (by norm_num [timeOf])
    (by norm_num [wsEventsAt, wsStateAt, wsRun, wsStep, wsFrameStep,
      wsListenCond, wsMidBase, wsApplyStt, wsApplyFinished, wsFrameRest,
      wsBargeBlock, wsBargeCheckSpeech, wsBargeSpeech, wsCancelTracked,
      wsTurnCompletion, WsState.init,
      show ¬ (CollectorResult.utter ([] : List ℚ) = CollectorResult.early)
        from by simp,
      show ¬ (CollectorResult.nothing = CollectorResult.early) from by simp,
      show ¬ (Option.some (12:ℚ) = Option.none) from by simp,
      show strippedEmpty "hi" = false from by decide])

/-- Witness for C4: the same concrete run satisfies the barge-in-actions
theorem's hypotheses and conclusion at the firing iteration. -/
theorem barge_in_actions_witness :
    (∃ l1 l2, wsEventsAt
        [WsInput.frame ⟨false, CollectorResult.utter [], 10, [],
          Option.some "hi"⟩,
         WsInput.frame ⟨true, CollectorResult.nothing, 12, [], Option.none⟩,
         WsInput.frame ⟨true, CollectorResult.nothing, 13, [], Option.none⟩] 2 =
      l1 ++ WsEvent.interrupt :: l2 ++ [WsEvent.stopAudio]) ∧
    (wsStateAt
        [WsInput.frame ⟨false, CollectorResult.utter [], 10, [],
          Option.some "hi"⟩,
         WsInput.frame ⟨true, CollectorResult.nothing, 12, [], Option.none⟩,
         WsInput.frame ⟨true, CollectorResult.nothing, 13, [], Option.none⟩]
        3).interruptions =
      (wsStateAt
        [WsInput.frame ⟨false, CollectorResult.utter [], 10, [],
          Option.some "hi"⟩,
         WsInput.frame ⟨true, CollectorResult.nothing, 12, [], Option.none⟩,
         WsInput.frame ⟨true, CollectorResult.nothing, 13, [], Option.none⟩]
        2).interruptions + 1 ∧
    (wsStateAt
        [WsInput.frame ⟨false, CollectorResult.utter [], 10, [],
          Option.some "hi"⟩,
         WsInput.frame ⟨true, CollectorResult.nothing, 12, [], Option.none⟩,
         WsInput.frame ⟨true, CollectorResult.nothing, 13, [], Option.none⟩]
        3).agent_speaking = false ∧
    (wsStateAt
        [WsInput.frame ⟨false, CollectorResult.utter [], 10, [],
          Option.some "hi"⟩,
         WsInput.frame ⟨true, CollectorResult.nothing, 12, [], Option.none⟩,
         WsInput.frame ⟨true, CollectorResult.nothing, 13, [], Option.none⟩]
        3).agent_task = Option.none ∧
    (wsStateAt
        [WsInput.frame ⟨false, CollectorResult.utter [], 10, [],
          Option.some "hi"⟩,
         WsInput.frame ⟨true, CollectorResult.nothing, 12, [], Option.none⟩,
         WsInput.frame ⟨true, CollectorResult.nothing, 13, [], Option.none⟩]
        3).is_playing = false ∧
    (∀ id, (wsStateAt
        [WsInput.frame ⟨false, CollectorResult.utter [], 10, [],
          Option.some "hi"⟩,
         WsInput.frame ⟨true, CollectorResult.nothing, 12, [], Option.none⟩,
         WsInput.frame ⟨true, CollectorResult.nothing, 13, [], Option.none⟩]
        2).agent_task = Option.some id →
      id ∉ (wsStateAt
        [WsInput.frame ⟨false, CollectorResult.utter [], 10, [],
          Option.some "hi"⟩,
         WsInput.frame ⟨true, CollectorResult.nothing, 12, [], Option.none⟩,
         WsInput.frame ⟨true, CollectorResult.nothing, 13, [], Option.none⟩]
        3).live) ∧
    (∀ id, WsEvent.taskSpawned id ∉ wsEventsAt
        [WsInput.frame ⟨false, CollectorResult.utter [], 10, [],
          Option.some "hi"⟩,
         WsInput.frame ⟨true, CollectorResult.nothing, 12, [], Option.none⟩,
         WsInput.frame ⟨true, CollectorResult.nothing, 13, [], Option.none⟩] 2) :=
  barge_in_actions _ 2 (by decide)
    (by norm_num [wsEventsAt, wsStateAt, wsRun, wsStep, wsFrameStep,
      wsListenCond, wsMidBase, wsApplyStt, wsApplyFinished, wsFrameRest,
      wsBargeBlock, wsBargeCheckSpeech, wsBargeSpeech, wsCancelTracked,
      wsTurnCompletion, WsState.init,
      show ¬ (CollectorResult.utter ([] : List ℚ) = CollectorResult.early)
        from by simp,
      show ¬ (CollectorResult.nothing = CollectorResult.early) from by simp,
      show ¬ (Option.some (12:ℚ) = Option.none) from by simp,
      show strippedEmpty "hi" = false from by decide])

end VoiceAgent
